import Mathlib

/-!
Verification of the daelos Ontogenesis evolution engine
(`OntogenesisService` and its types) against its natural-language
specification.

The TypeScript source is shallowly embedded:
* JS numbers are modelled as rationals (`ℚ`); the file never relies on
  floating-point rounding, and no claim checked here does either.
* JS array accesses `a[i]` that can yield `undefined` (and hence a
  `TypeError` when a property of the result is read) are modelled with
  `Option`; a `none` result of an engine operation marks a thrown
  `TypeError`.
* `Math.random()` draws and the outputs of the Box-Muller
  `gaussianRandom()` helper (a transcendental function, not
  representable in `ℚ`) are modelled as oracle streams supplied to each
  operation.  No claim depends on the distribution of the draws.
* `generateKernelId` builds a globally unique id from `Date.now()` and
  a random suffix; the model keeps a `nextId` counter in the engine
  state and hands out consecutive numeric ids, which is the uniqueness
  the identifier scheme is designed to provide.  `Date.now()` itself is
  modelled by an explicit `now : ℕ` argument.
* Event payloads are not modelled; each operation returns the list of
  event types it emits, which is all the claims refer to.
-/

set_option maxRecDepth 100000

namespace Daelos

/-- Runtime value stored in a gene (`Gene.value : unknown` in the
source; the templates and operators only ever use numbers, booleans and
strings). -/
inductive GeneValue where
  | num (q : ℚ)
  | bool (b : Bool)
  | str (s : String)
deriving DecidableEq, Repr

/-- Rendering of a JS number by `JSON.stringify`, for the decimal
rationals the engine manipulates: an integer prints without a decimal
point, otherwise the shortest terminating decimal expansion is printed.
(Rationals without a terminating decimal expansion cannot arise from
the engine's literals; for totality they fall back to a fraction
rendering.) -/
def jsNumRepr (q : ℚ) : String :=
  if q.den = 1 then toString q.num
  else
    match (List.range (q.den + 1)).find? (fun k => (q * (10 : ℚ) ^ k).den = 1) with
    | some k =>
        let sign := if q < 0 then "-" else ""
        let n := q.num.natAbs * 10 ^ k / q.den
        let ip := n / 10 ^ k
        let fp := n % 10 ^ k
        let fs := toString fp
        let pad := String.mk (List.replicate (k - fs.length) '0')
        sign ++ toString ip ++ "." ++ pad ++ fs
    | none => toString q.num ++ "/" ++ toString q.den

/-- JSON string escaping for the characters that occur in gene data
(quote and backslash; control characters never occur in the engine's
strings). -/
def jsonEscape (s : String) : String :=
  String.mk ((s.data.map (fun c =>
    if c = '"' then ['\\', '"'] else if c = '\\' then ['\\', '\\'] else [c])).flatten)

/-- JSON rendering of a quoted string. -/
def jsonStr (s : String) : String := "\"" ++ jsonEscape s ++ "\""

/-- JSON rendering of a gene value, as `JSON.stringify` produces it. -/
def jsonValue : GeneValue → String
  | .num q => jsNumRepr q
  | .bool b => if b then "true" else "false"
  | .str s => jsonStr s

/-- Coercion of an integer to signed 32-bit range, as the JS bitwise
operators perform it (`ToInt32`). -/
def toInt32 (n : ℤ) : ℤ := (n + 2 ^ 31) % 2 ^ 32 - 2 ^ 31

/-- One step of the checksum hash loop:
`hash = ((hash << 5) - hash) + char; hash = hash & hash`.
`h << 5` wraps `h * 32` to int32; the subtraction and addition are
exact in float64 at these magnitudes; `hash & hash` wraps the result
back to int32. -/
def hashStep (h : ℤ) (c : ℕ) : ℤ := toInt32 (toInt32 (h * 32) - h + (c : ℤ))

/-- The string hash used by `calculateChecksum`: fold `hashStep` over
the UTF-16 code units (our strings are ASCII, where a code unit is the
character code). -/
def jsHash (s : String) : ℤ := s.data.foldl (fun h c => hashStep h c.toNat) 0

/-- Lowercase hexadecimal rendering of a natural number, as
`Number.prototype.toString(16)` produces for nonnegative integers. -/
def toHex (n : ℕ) : String := (Nat.toDigits 16 n).asString

/-! ### Data model (`types.ts`) -/

/-- Gene type discriminator (`GeneType`); `struct` stands for the
source's `structure` variant. -/
inductive GeneType where
  | parameter | switch | selector | sequence | struct
deriving DecidableEq, Repr

/-- A gene (`Gene`). -/
structure Gene where
  id : String
  name : String
  type : GeneType
  value : GeneValue
  mutable : Bool
  expressionLevel : ℚ
deriving DecidableEq, Repr

/-- An expression modifier (`ExpressionModifier`). -/
structure ExpressionModifier where
  targetGene : String
  condition : String
  modifier : ℚ
deriving DecidableEq, Repr

/-- A kernel genome (`KernelGenome`). -/
structure KernelGenome where
  coreGenes : List Gene
  regulatoryGenes : List Gene
  expressionModifiers : List ExpressionModifier
  checksum : String
deriving DecidableEq, Repr

/-- Kernel lifecycle states (`KernelState`). -/
inductive KernelState where
  | DORMANT | ACTIVE | BREEDING | EVALUATING | DEPRECATED | ARCHIVED
deriving DecidableEq, Repr

/-- Breeding methods (`BreedingMethod`); `multiParent` is the source's
`multi-parent`. -/
inductive BreedingMethod where
  | asexual | crossover | multiParent | synthetic | emergent
deriving DecidableEq, Repr

/-- Mutation type discriminator (`MutationType`). -/
inductive MutationType where
  | parameter | structural | behavioral | deletion | insertion | duplication
deriving DecidableEq, Repr

/-- A mutation record (`Mutation`). -/
structure Mutation where
  id : String
  type : MutationType
  target : String
  magnitude : ℚ
  timestamp : ℕ
deriving DecidableEq, Repr

/-- Kernel lineage (`KernelLineage`); kernel ids are the model's
numeric ids. -/
structure KernelLineage where
  generation : ℕ
  parents : List ℕ
  ancestors : List ℕ
  breedingMethod : BreedingMethod
  mutations : List Mutation
deriving DecidableEq, Repr

/-- Fitness scores (`FitnessScores`). -/
structure FitnessScores where
  overall : ℚ
  performance : ℚ
  efficiency : ℚ
  reliability : ℚ
  adaptability : ℚ
  innovation : ℚ
  evaluations : ℕ
  lastEvaluated : ℕ
deriving DecidableEq, Repr

/-- Kernel type discriminator (`KernelType`). -/
inductive KernelType where
  | inference | reasoning | memory | perception | action | meta | integration | specialized
deriving DecidableEq, Repr

/-- String rendering of a kernel type, as it appears in template
literals of the source. -/
def kernelTypeStr : KernelType → String
  | .inference => "inference" | .reasoning => "reasoning" | .memory => "memory"
  | .perception => "perception" | .action => "action" | .meta => "meta"
  | .integration => "integration" | .specialized => "specialized"

/-- A cognitive kernel (`CognitiveKernel`). -/
structure CognitiveKernel where
  id : ℕ
  name : String
  version : String
  type : KernelType
  lineage : KernelLineage
  genome : KernelGenome
  fitness : FitnessScores
  state : KernelState
  created : ℕ
  lastActivated : ℕ
deriving DecidableEq, Repr

/-- Population statistics (`PopulationStatistics`). -/
structure PopulationStatistics where
  totalCreated : ℕ
  activeCount : ℕ
  archivedCount : ℕ
  averageFitness : ℚ
  bestFitness : ℚ
  fitnessTrend : List ℚ
  diversityIndex : ℚ
deriving DecidableEq, Repr

/-- A kernel population (`KernelPopulation`). -/
structure KernelPopulation where
  id : String
  name : KernelType
  generation : ℕ
  kernels : List CognitiveKernel
  statistics : PopulationStatistics
  selectionPressure : ℚ
  mutationRate : ℚ
  capacity : ℕ
deriving DecidableEq, Repr

/-- Evolution configuration (`EvolutionConfig`). -/
structure EvolutionConfig where
  generationInterval : ℕ
  populationCapacity : ℕ
  baseMutationRate : ℚ
  selectionPressure : ℚ
  elitismRate : ℚ
  crossoverRate : ℚ
  enableEmergence : Bool
  archiveThreshold : ℚ
deriving DecidableEq, Repr

/-- The default configuration (`DEFAULT_EVOLUTION_CONFIG`). -/
def DEFAULT_EVOLUTION_CONFIG : EvolutionConfig where
  generationInterval := 300000
  populationCapacity := 50
  baseMutationRate := 0.1
  selectionPressure := 0.5
  elitismRate := 0.1
  crossoverRate := 0.7
  enableEmergence := true
  archiveThreshold := 0.3

/-- Emergence event types (`EmergenceType`). -/
inductive EmergenceType where
  | capability | behavior | structureType | integration
deriving DecidableEq, Repr

/-- An emergence event (`EmergenceEvent`); the optional `kernelId`
field is never set by the engine and is omitted. -/
structure EmergenceEvent where
  id : String
  timestamp : ℕ
  type : EmergenceType
  description : String
  significance : ℚ
deriving DecidableEq, Repr

/-- Event kinds of the engine's event bus (`OntogenesisEventType`). -/
inductive EventType where
  | kernelCreated | kernelActivated | kernelDeprecated | breedingComplete
  | generationComplete | emergenceDetected | populationUpdated
deriving DecidableEq, Repr

/-- The engine state (`OntogenesisState`), extended with the `nextId`
counter backing the model of `generateKernelId` (see the file
header). -/
structure OntogenesisState where
  populations : List KernelPopulation
  archive : List CognitiveKernel
  config : EvolutionConfig
  globalGeneration : ℕ
  totalKernelsCreated : ℕ
  emergenceEvents : List EmergenceEvent
  isEvolving : Bool
  lastEvolutionCycle : ℕ
  nextId : ℕ
deriving DecidableEq, Repr

/-- A partial genome (`Partial<KernelGenome>`), as used in templates
and `createKernel`'s custom-genome argument. -/
structure PartialGenome where
  coreGenes : Option (List Gene) := none
  regulatoryGenes : Option (List Gene) := none
  expressionModifiers : Option (List ExpressionModifier) := none
deriving DecidableEq, Repr

/-- A kernel template (`KernelTemplate`). -/
structure KernelTemplate where
  name : String
  type : KernelType
  baseGenome : PartialGenome
  description : String
deriving DecidableEq, Repr

/-- Shorthand for the parameter genes of the predefined templates. -/
def paramGene (id name : String) (v : ℚ) : Gene where
  id := id
  name := name
  type := .parameter
  value := .num v
  mutable := true
  expressionLevel := 1

/-- The predefined kernel templates (`KERNEL_TEMPLATES`). -/
def KERNEL_TEMPLATES : List KernelTemplate := [
  { name := "Basic Inference", type := .inference,
    baseGenome := { coreGenes := some [paramGene "temperature" "Temperature" 0.7,
                                       paramGene "maxTokens" "Max Tokens" 2048,
                                       paramGene "topP" "Top P" 0.9],
                    regulatoryGenes := some [], expressionModifiers := some [] },
    description := "Basic LLM inference kernel" },
  { name := "Analytical Reasoning", type := .reasoning,
    baseGenome := { coreGenes := some [paramGene "depth" "Reasoning Depth" 3,
                                       paramGene "breadth" "Exploration Breadth" 5,
                                       paramGene "rigor" "Logical Rigor" 0.8],
                    regulatoryGenes := some [], expressionModifiers := some [] },
    description := "Analytical reasoning kernel" },
  { name := "Working Memory", type := .memory,
    baseGenome := { coreGenes := some [paramGene "capacity" "Capacity" 7,
                                       paramGene "decay" "Decay Rate" 0.1,
                                       paramGene "consolidation" "Consolidation Rate" 0.3],
                    regulatoryGenes := some [], expressionModifiers := some [] },
    description := "Working memory management kernel" },
  { name := "Meta-Cognitive Monitor", type := .meta,
    baseGenome := { coreGenes := some [paramGene "introspectionDepth" "Introspection Depth" 2,
                                       paramGene "selfAwareness" "Self-Awareness Level" 0.5,
                                       paramGene "adaptability" "Adaptability" 0.6],
                    regulatoryGenes := some [], expressionModifiers := some [] },
    description := "Meta-cognitive monitoring kernel" }]

/-! ### Checksum (`calculateChecksum`) -/

/-- JSON rendering of the id/value projection of one gene, as
`JSON.stringify` renders `{ id: g.id, value: g.value }`. -/
def geneJson (g : Gene) : String :=
  "\x7b\"id\":" ++ jsonStr g.id ++ ",\"value\":" ++ jsonValue g.value ++ "\x7d"

/-- JSON rendering of an array from already-rendered elements. -/
def jsonArray (xs : List String) : String :=
  "[" ++ String.intercalate "," xs ++ "]"

/-- The string `JSON.stringify({core: ..., reg: ...})` hashed by
`calculateChecksum`. -/
def checksumData (g : KernelGenome) : String :=
  "\x7b\"core\":" ++ jsonArray (g.coreGenes.map geneJson) ++
    ",\"reg\":" ++ jsonArray (g.regulatoryGenes.map geneJson) ++ "\x7d"

/-- The genome checksum (`calculateChecksum`): JSON-serialize the
id/value pairs of core and regulatory genes, hash with the 32-bit
string hash, and render `Math.abs(hash)` in hexadecimal. -/
def calculateChecksum (g : KernelGenome) : String :=
  toHex (jsHash (checksumData g)).natAbs

/-! ### Randomness model -/

/-- The random oracle: `u` models the `Math.random()` stream (values in
`[0,1)` at runtime), `g` models the outputs of the Box-Muller
`gaussianRandom()` helper, whose transcendental formula is not
representable over `ℚ`.  The random four-character suffixes that
`generateKernelId` and mutation ids append are not modelled (no claim
depends on them or on the exact number of draws they consume). -/
structure Rng where
  u : ℕ → ℚ
  g : ℕ → ℚ
  ui : ℕ := 0
  gi : ℕ := 0

/-- Draw the next `Math.random()` value. -/
def Rng.next (r : Rng) : ℚ × Rng := (r.u r.ui, { r with ui := r.ui + 1 })

/-- Draw the next `gaussianRandom()` value. -/
def Rng.nextG (r : Rng) : ℚ × Rng := (r.g r.gi, { r with gi := r.gi + 1 })

/-- An oracle that always draws 0, for concrete executions. -/
def rngZero : Rng := { u := fun _ => 0, g := fun _ => 0 }

/-- JS array indexing `a[i]`: `none` models `undefined` (negative or
out-of-range index). -/
def jsIndex (l : List α) (i : ℤ) : Option α :=
  if 0 ≤ i then l.get? i.toNat else none

/-- The empty genome, used as the `getD` fallback where the source
guards the access so `undefined` cannot occur. -/
def emptyGenome : KernelGenome := { coreGenes := [], regulatoryGenes := [], expressionModifiers := [], checksum := "" }

/-! ### Genome operators -/

/-- Asexual reproduction (`asexualReproduction`): per-gene object
copies are the identity in the value model; the checksum is reset to
the empty string, exactly as in the source. -/
def asexualReproduction (parentGenome : KernelGenome) : KernelGenome where
  coreGenes := parentGenome.coreGenes
  regulatoryGenes := parentGenome.regulatoryGenes
  expressionModifiers := parentGenome.expressionModifiers
  checksum := ""

/-- Two-parent crossover (`crossover`).  Consumes one draw for the
crossover point and one for the regulatory-gene choice, in source
order.  For draws in `[0,1)` — all `Math.random()` can produce — the
crossover point lies in `[0, len)` and `take`/`drop` agree with the JS
`slice` calls. -/
def crossover (genome1 genome2 : KernelGenome) (rng : Rng) : KernelGenome × Rng :=
  let (r, rng1) := rng.next
  let crossoverPoint := (⌊r * (genome1.coreGenes.length : ℚ)⌋).toNat
  let (r2, rng2) := rng1.next
  ({ coreGenes := genome1.coreGenes.take crossoverPoint ++ genome2.coreGenes.drop crossoverPoint
     regulatoryGenes := if r2 < 0.5 then genome1.regulatoryGenes else genome2.regulatoryGenes
     expressionModifiers :=
       genome1.expressionModifiers.take (genome1.expressionModifiers.length / 2) ++
         genome2.expressionModifiers.drop (genome2.expressionModifiers.length / 2)
     checksum := "" }, rng2)

/-- The index loop of `multiParentBreeding`: for each index `i` draw a
parent; copy its gene at `i` when present (`if (parentGene)` skips
missing ones).  The source guards the loop so the parent access cannot
be `undefined` for draws in `[0,1)`; the model clamps with `getD` for
other draws. -/
def multiParentCoreAux (genomes : List KernelGenome) : ℕ → ℕ → Rng → List Gene × Rng
  | _, 0, rng => ([], rng)
  | i, n + 1, rng =>
      let (r, rng1) := rng.next
      let pg := ((jsIndex genomes ⌊r * (genomes.length : ℚ)⌋).getD emptyGenome).coreGenes.get? i
      let (rest, rng2) := multiParentCoreAux genomes (i + 1) n rng1
      match pg with
      | some g => (g :: rest, rng2)
      | none => (rest, rng2)

/-- Multi-parent breeding (`multiParentBreeding`). -/
def multiParentBreeding (genomes : List KernelGenome) (rng : Rng) : KernelGenome × Rng :=
  let (core, rng1) :=
    if 0 < genomes.length ∧ 0 < ((genomes.headD emptyGenome).coreGenes.length) then
      multiParentCoreAux genomes 0 (genomes.headD emptyGenome).coreGenes.length rng
    else ([], rng)
  let (r2, rng2) := rng1.next
  let reg := ((jsIndex genomes ⌊r2 * (genomes.length : ℚ)⌋).map (·.regulatoryGenes)).getD []
  ({ coreGenes := core, regulatoryGenes := reg, expressionModifiers := [], checksum := "" }, rng2)

/-- Build one mutation record (`mutateGene`'s return object); the
random base-36 suffix of the id is not modelled. -/
def mkMutation (now : ℕ) (target : String) (magnitude : ℚ) : Mutation where
  id := "mut-" ++ toString now
  type := .parameter
  target := target
  magnitude := magnitude
  timestamp := now

/-- In-place mutation of one gene (`mutateGene`): Gaussian perturbation
with `σ = 0.1` clamped to `[0,1]` for numeric parameter genes, a flip
for boolean switch genes; a record is returned only when the magnitude
is positive. -/
def mutateGene (gene : Gene) (rng : Rng) (now : ℕ) : Gene × Option Mutation × Rng :=
  match gene.type, gene.value with
  | .parameter, .num q =>
      let (z, rng1) := rng.nextG
      let delta := z * 0.1
      let gene1 := { gene with value := .num (max 0 (min 1 (q + delta))) }
      if 0 < |delta| then (gene1, some (mkMutation now gene.id |delta|), rng1)
      else (gene1, none, rng1)
  | .switch, .bool b =>
      ({ gene with value := .bool (!b) }, some (mkMutation now gene.id 1), rng)
  | _, _ => (gene, none, rng)

/-- The per-gene loop of `applyMutations`: every `mutable` core gene is
mutated with probability `mutationRate` (the rate draw is only consumed
for mutable genes, mirroring the `&&` short circuit). -/
def applyMutationsCore (rate : ℚ) (now : ℕ) : List Gene → Rng → List Gene × List Mutation × Rng
  | [], rng => ([], [], rng)
  | g :: gs, rng =>
      if g.mutable then
        let (r, rng1) := rng.next
        if r < rate then
          let (g1, m?, rng2) := mutateGene g rng1 now
          let (gs1, ms, rng3) := applyMutationsCore rate now gs rng2
          (g1 :: gs1, m?.toList ++ ms, rng3)
        else
          let (gs1, ms, rng2) := applyMutationsCore rate now gs rng1
          (g :: gs1, ms, rng2)
      else
        let (gs1, ms, rng1) := applyMutationsCore rate now gs rng
        (g :: gs1, ms, rng1)

/-- Genome mutation (`applyMutations`): mutate the core genes, with
probability `rate × 0.1` insert one fresh parameter gene with a random
value, and recompute the checksum. -/
def applyMutations (genome : KernelGenome) (mutationRate : ℚ) (rng : Rng) (now : ℕ) :
    KernelGenome × List Mutation × Rng :=
  let (core1, ms, rng1) := applyMutationsCore mutationRate now genome.coreGenes rng
  let (r, rng2) := rng1.next
  let (core2, ms2, rng3) :=
    if r < mutationRate * 0.1 then
      let (v, rngv) := rng2.next
      let newGene : Gene :=
        { id := "gene-" ++ toString now, name := "Novel Gene", type := .parameter,
          value := .num v, mutable := true, expressionLevel := 0.5 }
      (core1 ++ [newGene],
       ms ++ [{ id := "mut-" ++ toString now, type := .insertion, target := newGene.id,
                magnitude := 1, timestamp := now }], rngv)
    else (core1, ms, rng2)
  let genome1 := { genome with coreGenes := core2 }
  ({ genome1 with checksum := calculateChecksum genome1 }, ms2, rng3)

/-- First-occurrence deduplication, the order a JS `Set` preserves. -/
def dedupFirstAux (seen : List ℕ) : List ℕ → List ℕ
  | [] => []
  | x :: xs => if x ∈ seen then dedupFirstAux seen xs else x :: dedupFirstAux (x :: seen) xs

/-- Ancestor chain of offspring (`buildAncestorChain`): each parent's
id followed by up to 4 of its ancestors, deduplicated in insertion
order, capped at 5. -/
def buildAncestorChain (parents : List CognitiveKernel) : List ℕ :=
  (dedupFirstAux []
    (parents.foldl (fun acc p => acc ++ p.id :: p.lineage.ancestors.take 4) [])).take 5

/-- Neutral initial fitness (`createInitialFitness`). -/
def createInitialFitness : FitnessScores where
  overall := 0.5
  performance := 0.5
  efficiency := 0.5
  reliability := 0.5
  adaptability := 0.5
  innovation := 0.5
  evaluations := 0
  lastEvaluated := 0

/-- The fixed weighted overall fitness (`calculateOverallFitness`). -/
def calculateOverallFitness (fitness : FitnessScores) : ℚ :=
  fitness.performance * 0.3 + fitness.efficiency * 0.2 + fitness.reliability * 0.2 +
    fitness.adaptability * 0.15 + fitness.innovation * 0.15

/-! ### Engine state and operations -/

/-- The initial engine state (`createInitialState`), with the model's
id counter at 0. -/
def createInitialState (config : EvolutionConfig) : OntogenesisState where
  populations := []
  archive := []
  config := config
  globalGeneration := 0
  totalKernelsCreated := 0
  emergenceEvents := []
  isEvolving := false
  lastEvolutionCycle := 0
  nextId := 0

/-- Kernel lookup (`findKernel`): scan the populations in order, then
the archive; first match wins. -/
def findKernel (s : OntogenesisState) (id : ℕ) : Option CognitiveKernel :=
  match s.populations.findSome? (fun p => p.kernels.find? (fun k => k.id == id)) with
  | some k => some k
  | none => s.archive.find? (fun k => k.id == id)

/-- Replace the first element satisfying `p` by its image under `f`;
`none` when there is none.  This is the functional rendering of the
source's in-place mutation of the object `find` returns. -/
def updateFirst (p : α → Bool) (f : α → α) : List α → Option (List α)
  | [] => none
  | x :: xs => if p x then some (f x :: xs) else (updateFirst p f xs).map (x :: ·)

/-- Apply `f` to the kernel with the given id inside the first
population that holds it. -/
def updateFirstPop (id : ℕ) (f : CognitiveKernel → CognitiveKernel) :
    List KernelPopulation → Option (List KernelPopulation)
  | [] => none
  | p :: ps =>
      match updateFirst (fun k => k.id == id) f p.kernels with
      | some ks => some ({ p with kernels := ks } :: ps)
      | none => (updateFirstPop id f ps).map (p :: ·)

/-- Mutate the kernel `findKernel` locates (populations in order, then
the archive); the state is unchanged when the id is unknown. -/
def updateKernel (s : OntogenesisState) (id : ℕ) (f : CognitiveKernel → CognitiveKernel) :
    OntogenesisState :=
  match updateFirstPop id f s.populations with
  | some ps => { s with populations := ps }
  | none => { s with archive := (updateFirst (fun k => k.id == id) f s.archive).getD s.archive }

/-- Kernel creation from a template (`createKernel`).  At the value
level the array spreads copy the gene lists; the sharing of the gene
objects themselves, invisible to value semantics, is analysed
separately in the reference model below. -/
def createKernel (s : OntogenesisState) (template : KernelTemplate)
    (customGenome : Option PartialGenome) (now : ℕ) :
    CognitiveKernel × OntogenesisState × List EventType :=
  let genome0 : KernelGenome :=
    { coreGenes := template.baseGenome.coreGenes.getD []
      regulatoryGenes := template.baseGenome.regulatoryGenes.getD []
      expressionModifiers := template.baseGenome.expressionModifiers.getD []
      checksum := "" }
  let genome1 :=
    match customGenome with
    | none => genome0
    | some cg =>
        { genome0 with
          coreGenes := match cg.coreGenes with
            | some l => genome0.coreGenes ++ l
            | none => genome0.coreGenes
          regulatoryGenes := match cg.regulatoryGenes with
            | some l => genome0.regulatoryGenes ++ l
            | none => genome0.regulatoryGenes }
  let genome := { genome1 with checksum := calculateChecksum genome1 }
  let kernel : CognitiveKernel :=
    { id := s.nextId
      name := template.name ++ "-" ++ toString s.nextId
      version := "1.0.0"
      type := template.type
      lineage := { generation := 0, parents := [], ancestors := [],
                   breedingMethod := .synthetic, mutations := [] }
      genome := genome
      fitness := createInitialFitness
      state := .DORMANT
      created := now
      lastActivated := 0 }
  (kernel, { s with totalKernelsCreated := s.totalKernelsCreated + 1, nextId := s.nextId + 1 },
   [.kernelCreated])

/-- A breeding request (`BreedingRequest`); `targetTraits` is never
read by the engine and is omitted. -/
structure BreedingRequest where
  parents : List ℕ
  method : BreedingMethod
  mutationRate : Option ℚ := none
  offspringCount : ℕ
deriving DecidableEq, Repr

/-- A breeding result (`BreedingResult`). -/
structure BreedingResult where
  offspring : List CognitiveKernel
  successRate : ℚ
  mutationsApplied : ℕ
  novelGenes : ℕ
deriving DecidableEq, Repr

/-- One iteration of `breed`'s offspring loop: combine genomes by the
requested method (crossover falls back to parent 0 when parent 1 is
missing), mutate, and assemble the child record. -/
def breedChild (parents : List CognitiveKernel) (p0 : CognitiveKernel) (method : BreedingMethod)
    (rate : ℚ) (gen now i nid : ℕ) (rng : Rng) : CognitiveKernel × Rng :=
  let (childGenome, rng1) :=
    match method with
    | .asexual => (asexualReproduction p0.genome, rng)
    | .crossover => crossover p0.genome (((parents.get? 1).map (fun k : CognitiveKernel => k.genome)).getD p0.genome) rng
    | .multiParent => multiParentBreeding (parents.map (fun k : CognitiveKernel => k.genome)) rng
    | _ => (asexualReproduction p0.genome, rng)
  let (mutatedGenome, mutations, rng2) := applyMutations childGenome rate rng1 now
  let child : CognitiveKernel :=
    { id := nid
      name := kernelTypeStr p0.type ++ "-gen" ++ toString (gen + 1) ++ "-" ++ toString i
      version := "1.0.0"
      type := p0.type
      lineage :=
        { generation := (parents.map (fun k : CognitiveKernel => k.lineage.generation)).foldl max 0 + 1
          parents := parents.map (fun k : CognitiveKernel => k.id)
          ancestors := buildAncestorChain parents
          breedingMethod := method
          mutations := mutations }
      genome := mutatedGenome
      fitness := createInitialFitness
      state := .DORMANT
      created := now
      lastActivated := 0 }
  (child, rng2)

/-- The offspring loop of `breed`: returns the offspring together with
the total number of mutations, the number of `insertion` mutations
(novel genes), the advanced id counter and the advanced oracle. -/
def breedLoop (parents : List CognitiveKernel) (p0 : CognitiveKernel) (method : BreedingMethod)
    (rate : ℚ) (gen now : ℕ) :
    ℕ → ℕ → ℕ → Rng → List CognitiveKernel × ℕ × ℕ × ℕ × Rng
  | 0, _, nid, rng => ([], 0, 0, nid, rng)
  | n + 1, i, nid, rng =>
      let (child, rng1) := breedChild parents p0 method rate gen now i nid rng
      let (rest, tm, ng, nid1, rng2) := breedLoop parents p0 method rate gen now n (i + 1) (nid + 1) rng1
      (child :: rest, child.lineage.mutations.length + tm,
       (child.lineage.mutations.filter (fun m => m.type == .insertion)).length + ng, nid1, rng2)

/-- The zero-effect breeding result returned when no parent
resolves. -/
def emptyBreedingResult : BreedingResult where
  offspring := []
  successRate := 0
  mutationsApplied := 0
  novelGenes := 0

/-- Breeding (`breed`): resolve the requested parent ids, dropping
unresolved ones; with no resolved parent return the zero-effect result
without touching the state or emitting an event; otherwise produce
`offspringCount` children and emit `breeding-complete`.  (With
`offspringCount = 0` and a resolved parent the source computes `0/0`,
i.e. `NaN`, as the success rate; in `ℚ` this is `0` — no claim touches
that corner.) -/
def breed (s : OntogenesisState) (request : BreedingRequest) (rng : Rng) (now : ℕ) :
    BreedingResult × OntogenesisState × Rng × List EventType :=
  let parents := request.parents.filterMap (fun id => findKernel s id)
  match parents with
  | [] => (emptyBreedingResult, s, rng, [])
  | p0 :: rest =>
      let rate := request.mutationRate.getD s.config.baseMutationRate
      let (offspring, tm, ng, nid1, rng1) :=
        breedLoop (p0 :: rest) p0 request.method rate s.globalGeneration now
          request.offspringCount 0 s.nextId rng
      ({ offspring := offspring
         successRate := (offspring.length : ℚ) / (request.offspringCount : ℚ)
         mutationsApplied := tm
         novelGenes := ng },
       { s with totalKernelsCreated := s.totalKernelsCreated + offspring.length, nextId := nid1 },
       rng1, [.breedingComplete])

/-- The caller-supplied partial scores of `evaluateFitness`
(`Partial<FitnessScores>` restricted to the five fields the function
reads). -/
structure PartialFitness where
  performance : Option ℚ := none
  efficiency : Option ℚ := none
  reliability : Option ℚ := none
  adaptability : Option ℚ := none
  innovation : Option ℚ := none
deriving DecidableEq, Repr

/-- The fitness update `evaluateFitness` performs on the kernel it
finds: overwrite the supplied components, recompute `overall`, bump
`evaluations`, stamp `lastEvaluated`. -/
def applyScores (scores : PartialFitness) (now : ℕ) (f : FitnessScores) : FitnessScores :=
  let f1 :=
    { f with
      performance := scores.performance.getD f.performance
      efficiency := scores.efficiency.getD f.efficiency
      reliability := scores.reliability.getD f.reliability
      adaptability := scores.adaptability.getD f.adaptability
      innovation := scores.innovation.getD f.innovation }
  { f1 with
    overall := calculateOverallFitness f1
    evaluations := f1.evaluations + 1
    lastEvaluated := now }

/-- Fitness evaluation (`evaluateFitness`): `none` for an unknown id,
otherwise the updated scores; the kernel is updated in place wherever
it lives.  No event is emitted. -/
def evaluateFitness (s : OntogenesisState) (kernelId : ℕ) (scores : PartialFitness) (now : ℕ) :
    Option FitnessScores × OntogenesisState :=
  match findKernel s kernelId with
  | none => (none, s)
  | some k =>
      (some (applyScores scores now k.fitness),
       updateKernel s kernelId (fun k => { k with fitness := applyScores scores now k.fitness }))

/-- Kernel activation (`activateKernel`): `false` for unknown ids and
`DEPRECATED` kernels; otherwise set `ACTIVE`, stamp `lastActivated`,
emit `kernel-activated` and return `true`. -/
def activateKernel (s : OntogenesisState) (kernelId : ℕ) (now : ℕ) :
    Bool × OntogenesisState × List EventType :=
  match findKernel s kernelId with
  | none => (false, s, [])
  | some k =>
      if k.state = KernelState.DEPRECATED then (false, s, [])
      else
        (true,
         updateKernel s kernelId (fun k => { k with state := .ACTIVE, lastActivated := now }),
         [.kernelActivated])

/-- Kernel deprecation (`deprecateKernel`). -/
def deprecateKernel (s : OntogenesisState) (kernelId : ℕ) :
    Bool × OntogenesisState × List EventType :=
  match findKernel s kernelId with
  | none => (false, s, [])
  | some _ =>
      (true, updateKernel s kernelId (fun k => { k with state := .DEPRECATED }),
       [.kernelDeprecated])

/-! ### Selection -/

/-- The descending stable sort on `fitness.overall` the selection phase
performs (`sort((a, b) => b.fitness.overall - a.fitness.overall)`). -/
def sortByFitness (kernels : List CognitiveKernel) : List CognitiveKernel :=
  kernels.mergeSort (fun a b => decide (b.fitness.overall ≤ a.fitness.overall))

/-- The archival predicate of `performSelection`: evaluated at least
once and below the archive threshold. -/
def archPred (cfg : EvolutionConfig) (k : CognitiveKernel) : Bool :=
  decide (k.fitness.overall < cfg.archiveThreshold) && decide (0 < k.fitness.evaluations)

/-- Mark a kernel archived, as the selection loop's in-place state
assignment does. -/
def markArchived (k : CognitiveKernel) : CognitiveKernel := { k with state := .ARCHIVED }

/-- Selection on one population (`performSelection`, body): sort by
descending fitness, set the state of every kernel satisfying
`archPred` to `ARCHIVED` (the in-place mutation is rendered by mapping
over the sorted list), collect those kernels for the archive, bump
`archivedCount`, and keep only the kernels whose state is not
`ARCHIVED`. -/
def performSelectionPop (cfg : EvolutionConfig) (pop : KernelPopulation) :
    KernelPopulation × List CognitiveKernel :=
  let sorted := sortByFitness pop.kernels
  let toArchive := sorted.filter (archPred cfg)
  let archived := toArchive.map markArchived
  let marked := sorted.map (fun k => if archPred cfg k then markArchived k else k)
  let kernels1 := marked.filter (fun k => decide (k.state ≠ KernelState.ARCHIVED))
  ({ pop with
     kernels := kernels1
     statistics := { pop.statistics with
                     archivedCount := pop.statistics.archivedCount + toArchive.length } },
   archived)

/-- Selection step of the evolution cycle on population `i`, appending
the culled kernels to the global archive. -/
def performSelection (s : OntogenesisState) (i : ℕ) : OntogenesisState :=
  match s.populations.get? i with
  | none => s
  | some pop =>
      let (pop1, archived) := performSelectionPop s.config pop
      { s with populations := s.populations.set i pop1, archive := s.archive ++ archived }

/-! ### Breeding step of the evolution cycle -/

/-- The elite slice of `performBreeding`:
`kernels.slice(0, ceil(length × elitismRate))`. -/
def eliteOf (cfg : EvolutionConfig) (pop : KernelPopulation) : List CognitiveKernel :=
  pop.kernels.take (⌈(pop.kernels.length : ℚ) * cfg.elitismRate⌉).toNat

/-- Append a bred offspring to population `i` and bump its
`totalCreated` statistic. -/
def pushKernel (s : OntogenesisState) (i : ℕ) (child : CognitiveKernel) : OntogenesisState :=
  match s.populations.get? i with
  | none => s
  | some pop =>
      let pop1 := { pop with
        kernels := pop.kernels ++ [child]
        statistics := { pop.statistics with totalCreated := pop.statistics.totalCreated + 1 } }
      { s with populations := s.populations.set i pop1 }

/-- One iteration of `performBreeding`'s loop: pick a method, pick 1-2
parents from the elite slice, breed one offspring and append it.
`none` models the `TypeError` thrown when the parent expression reads
`.id` of `undefined` — in particular whenever `elite` is empty. -/
def breedingSlot (s : OntogenesisState) (i : ℕ) (elite : List CognitiveKernel) (rng : Rng)
    (now : ℕ) : Option (OntogenesisState × Rng × List EventType) :=
  let (r1, rng1) := rng.next
  let method : BreedingMethod := if r1 < s.config.crossoverRate then .crossover else .asexual
  let (parents?, rng2) :=
    if method = BreedingMethod.crossover ∧ 2 ≤ elite.length then
      let (ra, rngA) := rng1.next
      let (rb, rngB) := rngA.next
      (match jsIndex elite ⌊ra * (elite.length : ℚ)⌋, jsIndex elite ⌊rb * (elite.length : ℚ)⌋ with
       | some ka, some kb => some [ka.id, kb.id]
       | _, _ => none, rngB)
    else
      let (ra, rngA) := rng1.next
      ((jsIndex elite ⌊ra * (elite.length : ℚ)⌋).map (fun k => [k.id]), rngA)
  match parents? with
  | none => none
  | some parents =>
      let (result, s1, rng3, evs) :=
        breed s { parents := parents, method := method, offspringCount := 1 } rng2 now
      match result.offspring with
      | [] => some (s1, rng3, evs)
      | child :: _ => some (pushKernel s1 i child, rng3, evs)

/-- Run up to `n` breeding slots with the fixed elite slice; the flag
records whether a slot threw (aborting the loop with the state
mutations made so far kept, exactly as a JS exception would). -/
def breedingSlots (i : ℕ) (elite : List CognitiveKernel) (now : ℕ) :
    ℕ → OntogenesisState → Rng → OntogenesisState × Rng × List EventType × Bool
  | 0, s, rng => (s, rng, [], false)
  | n + 1, s, rng =>
      match breedingSlot s i elite rng now with
      | none => (s, rng, [], true)
      | some (s1, rng1, evs) =>
          let (s2, rng2, evs2, threw) := breedingSlots i elite now n s1 rng1
          (s2, rng2, evs ++ evs2, threw)

/-- The breeding phase on population `i` (`performBreeding`): compute
the elite slice and the shortfall `max(0, capacity - size)` (the `ℕ`
subtraction), then breed one offspring per missing slot.  `none` marks
a thrown `TypeError`. -/
def performBreeding (s : OntogenesisState) (i : ℕ) (rng : Rng) (now : ℕ) :
    Option (OntogenesisState × Rng × List EventType) :=
  match s.populations.get? i with
  | none => some (s, rng, [])
  | some pop =>
      let elite := eliteOf s.config pop
      let needed := pop.capacity - pop.kernels.length
      if needed = 0 then some (s, rng, [])
      else
        let (s1, rng1, evs, threw) := breedingSlots i elite now needed s rng
        if threw then none else some (s1, rng1, evs)

/-- A prefix of the breeding phase: the state after `n` slots, or after
fewer when a slot throws.  Every state a real `performBreeding` call
can leave behind — including the partially updated state a thrown
`TypeError` abandons — is `(performBreedingUpTo s i rng now n).1` for
some `n`. -/
def performBreedingUpTo (s : OntogenesisState) (i : ℕ) (rng : Rng) (now : ℕ) (n : ℕ) :
    OntogenesisState × Rng × List EventType × Bool :=
  match s.populations.get? i with
  | none => (s, rng, [], false)
  | some pop =>
      let elite := eliteOf s.config pop
      let needed := pop.capacity - pop.kernels.length
      if needed = 0 then (s, rng, [], false)
      else breedingSlots i elite now (min n needed) s rng

/-! ### Statistics refresh -/

/-- `Math.max(...xs)` over a spread list; the `[]` case is unreachable
at the one call site, which is guarded by an emptiness check. -/
def jsMax (l : List ℚ) : ℚ :=
  match l with
  | [] => 0
  | h :: t => t.foldl max h

/-- Statistics refresh on one population
(`updatePopulationStatistics`, body): on an empty kernel list only
zero `averageFitness` and `bestFitness` and return early — no trend
append, no diversity or active-count recomputation, and no event
(the returned flag records whether `population-updated` is
emitted). -/
def updateStatisticsPop (pop : KernelPopulation) : KernelPopulation × Bool :=
  if pop.kernels.isEmpty then
    ({ pop with statistics := { pop.statistics with averageFitness := 0, bestFitness := 0 } },
     false)
  else
    let overalls := pop.kernels.map (fun k => k.fitness.overall)
    let avg := overalls.foldl (· + ·) 0 / (pop.kernels.length : ℚ)
    let best := jsMax overalls
    let trend1 := pop.statistics.fitnessTrend ++ [avg]
    let trend2 := if 20 < trend1.length then trend1.drop (trend1.length - 20) else trend1
    let distinct := (pop.kernels.map (fun k => k.genome.checksum)).dedup.length
    ({ pop with statistics :=
        { pop.statistics with
          averageFitness := avg
          bestFitness := best
          fitnessTrend := trend2
          diversityIndex := (distinct : ℚ) / (pop.kernels.length : ℚ)
          activeCount := (pop.kernels.filter (fun k => k.state == KernelState.ACTIVE)).length } },
     true)

/-- Statistics step of the evolution cycle on population `i`. -/
def updatePopulationStatistics (s : OntogenesisState) (i : ℕ) :
    OntogenesisState × List EventType :=
  match s.populations.get? i with
  | none => (s, [])
  | some pop =>
      let (pop1, emitted) := updateStatisticsPop pop
      ({ s with populations := s.populations.set i pop1 },
       if emitted then [.populationUpdated] else [])

/-! ### Emergence scan and the evolution cycle -/

/-- Emergence scan of one population (`checkForEmergence`, body):
with at least 5 trend samples compare the mean of the last 5 against
the mean of the 5 before them (`slice(-10, -5)`). -/
def emergenceScanPop (now : ℕ) (pop : KernelPopulation) : List EmergenceEvent :=
  let trend := pop.statistics.fitnessTrend
  if 5 ≤ trend.length then
    let recent := trend.drop (trend.length - 5)
    let older := (trend.drop (trend.length - 10)).take (trend.length - 5 - (trend.length - 10))
    if 0 < older.length then
      let recentAvg := recent.foldl (· + ·) 0 / (recent.length : ℚ)
      let olderAvg := older.foldl (· + ·) 0 / (older.length : ℚ)
      if olderAvg * 1.2 < recentAvg then
        [{ id := "emerge-" ++ toString now
           timestamp := now
           type := .capability
           description := "Significant capability improvement in " ++ kernelTypeStr pop.name ++
             " population"
           significance := (recentAvg - olderAvg) / olderAvg }]
      else []
    else []
  else []

/-- The emergence scan (`checkForEmergence`). -/
def checkForEmergence (s : OntogenesisState) (now : ℕ) : OntogenesisState × List EventType :=
  let newEvents := (s.populations.map (emergenceScanPop now)).flatten
  ({ s with emergenceEvents := s.emergenceEvents ++ newEvents },
   newEvents.map (fun _ => .emergenceDetected))

/-- Increment a population's generation counter, the last per-population
step of the cycle. -/
def popGenerationIncr (s : OntogenesisState) (i : ℕ) : OntogenesisState :=
  match s.populations.get? i with
  | none => s
  | some pop => { s with populations := s.populations.set i ({ pop with generation := pop.generation + 1 }) }

/-- The per-population body of `evolutionCycle`: selection, breeding,
statistics refresh, generation bump.  `none` marks the `TypeError` the
breeding phase can throw. -/
def evolutionCycleStep (s : OntogenesisState) (i : ℕ) (rng : Rng) (now : ℕ) :
    Option (OntogenesisState × Rng × List EventType) :=
  let s1 := performSelection s i
  match performBreeding s1 i rng now with
  | none => none
  | some (s2, rng2, evs2) =>
      let (s3, evs3) := updatePopulationStatistics s2 i
      some (popGenerationIncr s3 i, rng2, evs2 ++ evs3)

/-- Iterate the cycle body over populations `i, i+1, ...`. -/
def evolutionCycleAux (now : ℕ) :
    ℕ → ℕ → OntogenesisState → Rng → List EventType →
      Option (OntogenesisState × Rng × List EventType)
  | _, 0, s, rng, evs => some (s, rng, evs)
  | i, n + 1, s, rng, evs =>
      match evolutionCycleStep s i rng now with
      | none => none
      | some (s1, rng1, evs1) => evolutionCycleAux now (i + 1) n s1 rng1 (evs ++ evs1)

/-- One tick of the scheduler (`evolutionCycle`): process every
population, optionally scan for emergence, bump the global generation,
stamp the cycle time and emit `generation-complete`.  `none` marks a
thrown `TypeError` (the source has no per-population fault isolation,
so the tick aborts; its partial state effects are covered by the step
relation below). -/
def evolutionCycle (s : OntogenesisState) (rng : Rng) (now : ℕ) :
    Option (OntogenesisState × Rng × List EventType) :=
  match evolutionCycleAux now 0 s.populations.length s rng [] with
  | none => none
  | some (s1, rng1, evs) =>
      let (s2, evs2) := if s1.config.enableEmergence then checkForEmergence s1 now else (s1, [])
      some ({ s2 with globalGeneration := s2.globalGeneration + 1, lastEvolutionCycle := now },
            rng1, evs ++ evs2 ++ [.generationComplete])

/-! ### Population seeding -/

/-- The kernel types seeded by `initializePopulations`. -/
def initPopulationTypes : List KernelType := [.inference, .reasoning, .memory, .meta]

/-- Create the founder kernels of one population (5 `createKernel`
calls). -/
def initFounders (template : KernelTemplate) (now : ℕ) :
    ℕ → OntogenesisState → List CognitiveKernel × OntogenesisState × List EventType
  | 0, s => ([], s, [])
  | n + 1, s =>
      let (k, s1, evs) := createKernel s template none now
      let (ks, s2, evs2) := initFounders template now n s1
      (k :: ks, s2, evs ++ evs2)

/-- Seed one population of the given type (`initializePopulations`,
loop body). -/
def initOnePopulation (tp : KernelType) (now : ℕ) (s : OntogenesisState) :
    OntogenesisState × List EventType :=
  let pop0 : KernelPopulation :=
    { id := "pop-" ++ kernelTypeStr tp
      name := tp
      generation := 0
      kernels := []
      statistics := { totalCreated := 0, activeCount := 0, archivedCount := 0,
                      averageFitness := 0, bestFitness := 0, fitnessTrend := [],
                      diversityIndex := 0 }
      selectionPressure := s.config.selectionPressure
      mutationRate := s.config.baseMutationRate
      capacity := s.config.populationCapacity / initPopulationTypes.length }
  match KERNEL_TEMPLATES.find? (fun t => t.type == tp) with
  | some template =>
      let (ks, s1, evs) := initFounders template now 5 s
      ({ s1 with populations := s1.populations ++
          [{ pop0 with kernels := ks, statistics := { pop0.statistics with totalCreated := 5 } }] },
       evs)
  | none => ({ s with populations := s.populations ++ [pop0] }, [])

/-- Population seeding on first start (`initializePopulations`). -/
def initializePopulations (s : OntogenesisState) (now : ℕ) :
    OntogenesisState × List EventType :=
  initPopulationTypes.foldl
    (fun acc tp =>
      let (s1, evs1) := initOnePopulation tp now acc.1
      (s1, acc.2 ++ evs1))
    (s, [])

/-! ### Reference-semantics model of genome storage

The value-level embedding above cannot express object aliasing, so the
storage behaviour of `createKernel` (claim about deep copying) is
modelled here explicitly: gene objects live in a store, and a genome's
gene arrays are arrays of addresses, exactly the indirection JS object
references provide. -/

/-- A store of gene objects; an address is an index, allocation
appends. -/
structure GeneStore where
  cells : List Gene
deriving DecidableEq, Repr

/-- Read the gene object at an address. -/
def GeneStore.read (st : GeneStore) (a : ℕ) : Option Gene := st.cells.get? a

/-- Overwrite the gene object at an address (the effect of an
assignment to a field of the referenced object). -/
def GeneStore.write (st : GeneStore) (a : ℕ) (g : Gene) : GeneStore := ⟨st.cells.set a g⟩

/-- Allocate fresh cells for a list of gene objects, returning their
addresses. -/
def GeneStore.alloc (st : GeneStore) (gs : List Gene) : GeneStore × List ℕ :=
  (⟨st.cells ++ gs⟩, List.range' st.cells.length gs.length)

/-- Dereference a list of addresses. -/
def GeneStore.derefs (st : GeneStore) (as' : List ℕ) : List Gene := as'.filterMap st.read

/-- A genome as the heap sees it: arrays of references to gene
objects. -/
structure GenomeRefs where
  coreGenes : List ℕ
  regulatoryGenes : List ℕ
deriving DecidableEq, Repr

/-- The genome storage `createKernel` builds (no custom genome):
`coreGenes: [...(template.baseGenome.coreGenes || [])]` spreads the
template's array into a new array — copying the array of references,
not the gene objects, so every address is the template's own. -/
def createKernelGenomeRefs (tmpl : GenomeRefs) : GenomeRefs where
  coreGenes := tmpl.coreGenes
  regulatoryGenes := tmpl.regulatoryGenes

/-- The genome storage `asexualReproduction` builds:
`.map(g => ({...g}))` allocates a fresh object per gene. -/
def asexualReproductionRefs (st : GeneStore) (g : GenomeRefs) : GeneStore × GenomeRefs :=
  let (st1, core1) := st.alloc (st.derefs g.coreGenes)
  let (st2, reg1) := st1.alloc (st1.derefs g.regulatoryGenes)
  (st2, { coreGenes := core1, regulatoryGenes := reg1 })

/-- The in-place gene-value assignment `mutateGene` performs
(`gene.value = ...`), applied through a reference. -/
def mutateGeneValueAt (st : GeneStore) (a : ℕ) (v : GeneValue) : GeneStore :=
  match st.read a with
  | some g => st.write a { g with value := v }
  | none => st

/-! ### Concrete fixtures used by witnesses and counterexamples -/

/-- Fresh population statistics, as `initializePopulations` builds
them. -/
def emptyStatistics : PopulationStatistics where
  totalCreated := 0
  activeCount := 0
  archivedCount := 0
  averageFitness := 0
  bestFitness := 0
  fitnessTrend := []
  diversityIndex := 0

/-- A one-gene genome fixture. -/
def exampleGenome : KernelGenome where
  coreGenes := [paramGene "temperature" "Temperature" 0.7]
  regulatoryGenes := []
  expressionModifiers := []
  checksum := ""

/-- A kernel that has been evaluated once with all-zero scores, the
shape a founder takes after a worst-case `evaluateFitness` call. -/
def exampleLowKernel : CognitiveKernel where
  id := 0
  name := "Basic Inference-0"
  version := "1.0.0"
  type := .inference
  lineage := { generation := 0, parents := [], ancestors := [], breedingMethod := .synthetic,
               mutations := [] }
  genome := exampleGenome
  fitness := { overall := 0, performance := 0, efficiency := 0, reliability := 0,
               adaptability := 0, innovation := 0, evaluations := 1, lastEvaluated := 1 }
  state := .DORMANT
  created := 0
  lastActivated := 0

/-- A freshly created kernel with neutral fitness and no
evaluations. -/
def exampleNeutralKernel : CognitiveKernel :=
  { exampleLowKernel with fitness := createInitialFitness }

/-- A population holding only `exampleLowKernel`, at capacity 1. -/
def exampleLowPop : KernelPopulation where
  id := "pop-inference"
  name := .inference
  generation := 0
  kernels := [exampleLowKernel]
  statistics := emptyStatistics
  selectionPressure := 0.5
  mutationRate := 0.1
  capacity := 1

/-- An engine state whose only population holds one evaluated,
below-threshold kernel: the next selection empties the population. -/
def exampleLowState : OntogenesisState where
  populations := [exampleLowPop]
  archive := []
  config := DEFAULT_EVOLUTION_CONFIG
  globalGeneration := 0
  totalKernelsCreated := 1
  emergenceEvents := []
  isEvolving := true
  lastEvolutionCycle := 0
  nextId := 1

/-- A population holding one unevaluated kernel below capacity 2, so
the breeding step has exactly one elite member and one slot to fill. -/
def exampleNeutralPop : KernelPopulation :=
  { exampleLowPop with kernels := [exampleNeutralKernel], capacity := 2 }

/-- The engine state around `exampleNeutralPop`. -/
def exampleNeutralState : OntogenesisState :=
  { exampleLowState with populations := [exampleNeutralPop] }

/-- A population with an empty kernel list but a nonempty fitness
trend. -/
def exampleEmptyPop : KernelPopulation :=
  { exampleLowPop with
    kernels := []
    statistics := { emptyStatistics with
      fitnessTrend := [0.5]
      averageFitness := 0.9
      bestFitness := 0.9
      diversityIndex := 1 } }

/-- The engine state around `exampleEmptyPop`. -/
def exampleEmptyState : OntogenesisState :=
  { exampleLowState with populations := [exampleEmptyPop] }

/-- An archived kernel (as selection leaves it). -/
def exampleArchivedKernel : CognitiveKernel :=
  { exampleLowKernel with state := .ARCHIVED }

/-- An engine state whose archive holds one archived kernel and whose
only population is empty. -/
def exampleArchivedState : OntogenesisState :=
  { exampleLowState with
    populations := [{ exampleLowPop with kernels := [] }]
    archive := [exampleArchivedKernel] }

/-- A genome with a single selector gene carrying the string value
`"Aa"`. -/
def exampleGenomeAa : KernelGenome where
  coreGenes := [{ id := "g", name := "G", type := .selector, value := .str "Aa",
                  mutable := false, expressionLevel := 1 }]
  regulatoryGenes := []
  expressionModifiers := []
  checksum := ""

/-- `exampleGenomeAa` with the gene's value changed to `"BB"`. -/
def exampleGenomeBB : KernelGenome where
  coreGenes := [{ id := "g", name := "G", type := .selector, value := .str "BB",
                  mutable := false, expressionLevel := 1 }]
  regulatoryGenes := []
  expressionModifiers := []
  checksum := ""

/-- `exampleGenomeAa` with only the gene's name (not id or value)
changed. -/
def exampleGenomeRenamed : KernelGenome where
  coreGenes := [{ id := "g", name := "H", type := .selector, value := .str "Aa",
                  mutable := false, expressionLevel := 1 }]
  regulatoryGenes := []
  expressionModifiers := []
  checksum := ""

/-- A one-cell gene store holding a template's gene object. -/
def exampleStore : GeneStore := ⟨[paramGene "temperature" "Temperature" 0.7]⟩

/-- The template genome referencing `exampleStore`'s single cell. -/
def exampleTemplateRefs : GenomeRefs := ⟨[0], []⟩

/-! ### Engine step relation

One constructor per state-mutating operation of the service.  The
three per-population phases of a tick and its closing bookkeeping are
separate steps: a full `evolutionCycle` is their composition in order,
and a tick aborted by the `TypeError` the breeding phase can throw
(see C1) leaves exactly the state of a prefix of these steps, so every
state a real execution can produce is reachable here. -/

/-- The kernel ids held by a list of populations, as a multiset. -/
def popsIds (ps : List KernelPopulation) : Multiset ℕ :=
  (ps.map (fun p => ((p.kernels.map (fun k => k.id) : List ℕ) : Multiset ℕ))).sum

/-- The ids of the archived kernels, in order. -/
def archIdsL (s : OntogenesisState) : List ℕ := s.archive.map (fun k => k.id)

/-- Every kernel id the engine owns. -/
def allIds (s : OntogenesisState) : Multiset ℕ := popsIds s.populations + (archIdsL s : Multiset ℕ)

/-- The structural invariant of reachable engine states: every owned
id is below the id counter, ids are globally distinct, and no
population holds a kernel in the `ARCHIVED` state (selection removes
the kernels it marks in the same call). -/
def StateWF (s : OntogenesisState) : Prop :=
  (∀ id ∈ allIds s, id < s.nextId) ∧ (allIds s).Nodup ∧
    (∀ p ∈ s.populations, ∀ k ∈ p.kernels, k.state ≠ KernelState.ARCHIVED)

/-- One atomic engine step. -/
inductive Step : OntogenesisState → OntogenesisState → Prop where
  | seed (s : OntogenesisState) (now : ℕ) :
      Step s (initializePopulations s now).1
  | create (s : OntogenesisState) (tmpl : KernelTemplate) (cg : Option PartialGenome) (now : ℕ) :
      Step s (createKernel s tmpl cg now).2.1
  | breedOp (s : OntogenesisState) (req : BreedingRequest) (rng : Rng) (now : ℕ) :
      Step s (breed s req rng now).2.1
  | evalOp (s : OntogenesisState) (id : ℕ) (scores : PartialFitness) (now : ℕ) :
      Step s (evaluateFitness s id scores now).2
  | activate (s : OntogenesisState) (id now : ℕ) :
      Step s (activateKernel s id now).2.1
  | deprecate (s : OntogenesisState) (id : ℕ) :
      Step s (deprecateKernel s id).2.1
  | selectPhase (s : OntogenesisState) (i : ℕ) :
      Step s (performSelection s i)
  | breedPhase (s : OntogenesisState) (i : ℕ) (rng : Rng) (now n : ℕ) :
      Step s (performBreedingUpTo s i rng now n).1
  | statsPhase (s : OntogenesisState) (i : ℕ) :
      Step s (updatePopulationStatistics s i).1
  | emergencePhase (s : OntogenesisState) (now : ℕ) :
      Step s (checkForEmergence s now).1
  | genIncr (s : OntogenesisState) (i : ℕ) :
      Step s (popGenerationIncr s i)
  | cycleEnd (s : OntogenesisState) (now : ℕ) :
      Step s { s with globalGeneration := s.globalGeneration + 1, lastEvolutionCycle := now }
  | startStop (s : OntogenesisState) (b : Bool) :
      Step s { s with isEvolving := b }

/-- Finitely many engine steps. -/
def Steps : OntogenesisState → OntogenesisState → Prop := Relation.ReflTransGen Step

/-- Reachability from a freshly constructed service. -/
def Reachable (cfg : EvolutionConfig) (s : OntogenesisState) : Prop :=
  Steps (createInitialState cfg) s

/-- The master transition property every engine step enjoys: the
archive id list only ever grows at its end, and the structural
invariant is preserved. -/
def Evolves (s s1 : OntogenesisState) : Prop :=
  (∃ t, archIdsL s1 = archIdsL s ++ t) ∧ (StateWF s → StateWF s1)

/-! ## Theorems -/

/-- C1: the per-tick population processing is *not* total.
`exampleLowState` holds one population at capacity 1 whose single
kernel has been evaluated once with overall fitness 0: selection
archives it, leaving the kernels list empty while the capacity is
positive, and the breeding phase then reads `.id` of
`elite[Math.floor(Math.random() * elite.length)]` with `elite` empty —
a `TypeError` (`none` in the model), so the whole tick throws instead
of returning. -/
theorem performBreeding_throws_on_emptied_population :
    (performSelection exampleLowState 0).populations.map (fun p => p.kernels) = [[]] ∧
    (performSelection exampleLowState 0).populations.map (fun p => p.capacity) = [1] ∧
    (performBreeding (performSelection exampleLowState 0) 0 rngZero 5).isNone = true ∧
    (evolutionCycle exampleLowState rngZero 5).isNone = true :=
  ⟨by with_unfolding_all rfl, by with_unfolding_all rfl, by with_unfolding_all rfl,
   by with_unfolding_all rfl⟩

/-- C2 counterexample: two kernels built by `createKernel` from the
same template share their gene objects with the template, so the
in-place gene mutation breeding performs, applied through the first
kernel's genome, changes the gene the second kernel's genome and the
template reference.  The store holds the template's single gene; both
created genomes alias its address. -/
theorem createKernel_mutation_leaks_to_sibling :
    ¬ ((mutateGeneValueAt exampleStore
          ((createKernelGenomeRefs exampleTemplateRefs).coreGenes.headD 0) (.num 1)).derefs
          (createKernelGenomeRefs exampleTemplateRefs).coreGenes =
        exampleStore.derefs (createKernelGenomeRefs exampleTemplateRefs).coreGenes) ∧
    ¬ ((mutateGeneValueAt exampleStore
          ((createKernelGenomeRefs exampleTemplateRefs).coreGenes.headD 0) (.num 1)).derefs
          exampleTemplateRefs.coreGenes =
        exampleStore.derefs exampleTemplateRefs.coreGenes) :=
  ⟨of_decide_eq_true (by with_unfolding_all rfl), of_decide_eq_true (by with_unfolding_all rfl)⟩

/-- C2 amended: `createKernel` copies the gene *arrays*, not the gene
objects — every created kernel holds exactly the template's gene
addresses, so independent storage fails; the breeding operators
(`asexualReproduction` shown here) do allocate fresh gene objects,
whose addresses lie outside the existing store. -/
theorem createKernel_copies_arrays_not_objects :
    (∀ tmpl : GenomeRefs,
        (createKernelGenomeRefs tmpl).coreGenes = tmpl.coreGenes ∧
        (createKernelGenomeRefs tmpl).regulatoryGenes = tmpl.regulatoryGenes) ∧
    (∀ (st : GeneStore) (g : GenomeRefs) (a : ℕ),
        a ∈ (asexualReproductionRefs st g).2.coreGenes → st.cells.length ≤ a) := by
  refine ⟨fun tmpl => ⟨rfl, rfl⟩, fun st g a ha => ?_⟩
  simp only [asexualReproductionRefs, GeneStore.alloc] at ha
  exact (List.mem_range'_1.mp ha).1

/-- C2 amended, witness: the freshness half applied at the concrete
store. -/
theorem createKernel_copies_arrays_not_objects_witness :
    1 ∈ (asexualReproductionRefs exampleStore exampleTemplateRefs).2.coreGenes ∧
    exampleStore.cells.length ≤ 1 :=
  ⟨of_decide_eq_true (by with_unfolding_all rfl),
   createKernel_copies_arrays_not_objects.2 exampleStore exampleTemplateRefs 1
     (of_decide_eq_true (by with_unfolding_all rfl))⟩

/-- C8 counterexample: two genomes that differ in exactly one gene's
value (`"Aa"` vs `"BB"`, same gene id, identical regulatory genes)
hash to the same checksum — the 32-bit string hash collides, so a
value change does not always change the checksum. -/
theorem checksum_collision_single_value_change :
    calculateChecksum exampleGenomeAa = calculateChecksum exampleGenomeBB ∧
    exampleGenomeAa.coreGenes.map (fun g => g.id) =
      exampleGenomeBB.coreGenes.map (fun g => g.id) ∧
    ¬ (exampleGenomeAa.coreGenes.map (fun g => g.value) =
        exampleGenomeBB.coreGenes.map (fun g => g.value)) ∧
    exampleGenomeAa.regulatoryGenes = exampleGenomeBB.regulatoryGenes :=
  ⟨by with_unfolding_all rfl, by with_unfolding_all rfl,
   of_decide_eq_true (by with_unfolding_all rfl), by with_unfolding_all rfl⟩

/-- The gene serialization reads only the id and the value. -/
theorem geneJson_proj (g1 g2 : Gene) (h1 : g1.id = g2.id) (h2 : g1.value = g2.value) :
    geneJson g1 = geneJson g2 := by
  simp [geneJson, h1, h2]

/-- Gene lists with the same id/value projection serialize
identically. -/
theorem map_geneJson_eq : ∀ {l1 l2 : List Gene},
    l1.map (fun g => (g.id, g.value)) = l2.map (fun g => (g.id, g.value)) →
    l1.map geneJson = l2.map geneJson
  | [], [], _ => rfl
  | [], _ :: _, h => by simp at h
  | _ :: _, [], h => by simp at h
  | x :: xs, y :: ys, h => by
      simp only [List.map_cons, List.cons.injEq, Prod.mk.injEq] at h ⊢
      exact ⟨geneJson_proj x y h.1.1 h.1.2, map_geneJson_eq h.2⟩

/-- C8 amended: the checksum is a pure, order-sensitive function of
the `(coreGenes, regulatoryGenes)` id/value pairs — recomputing it on
identical gene contents always yields the same string (even when
names, types, mutability flags or expression data differ) — but a
single gene-value change need not change it
(`checksum_collision_single_value_change`). -/
theorem calculateChecksum_pure_in_id_value (g1 g2 : KernelGenome)
    (hc : g1.coreGenes.map (fun g => (g.id, g.value)) =
      g2.coreGenes.map (fun g => (g.id, g.value)))
    (hr : g1.regulatoryGenes.map (fun g => (g.id, g.value)) =
      g2.regulatoryGenes.map (fun g => (g.id, g.value))) :
    calculateChecksum g1 = calculateChecksum g2 := by
  unfold calculateChecksum checksumData
  rw [map_geneJson_eq hc, map_geneJson_eq hr]

/-- A left fold of `max` bounds every list element and the seed. -/
theorem foldl_max_le_self (l : List ℚ) (a : ℚ) :
    a ≤ l.foldl max a ∧ ∀ x ∈ l, x ≤ l.foldl max a := by
  induction l generalizing a with
  | nil => simp
  | cons y ys ih =>
      refine ⟨?_, ?_⟩
      · exact le_trans (le_max_left a y) (ih (max a y)).1
      · intro x hx
        rcases List.mem_cons.mp hx with rfl | hx
        · exact le_trans (le_max_right a x) (ih (max a x)).1
        · exact (ih (max a y)).2 x hx

/-- A left fold of `max` is the seed or one of the elements. -/
theorem foldl_max_mem (l : List ℚ) (a : ℚ) : l.foldl max a = a ∨ l.foldl max a ∈ l := by
  induction l generalizing a with
  | nil => simp
  | cons y ys ih =>
      rcases ih (max a y) with h | h
      · rcases max_choice a y with he | he
        · exact Or.inl (by rw [List.foldl_cons]; exact h.trans he)
        · refine Or.inr ?_
          rw [List.foldl_cons, h, he]
          exact List.mem_cons_self y ys
      · exact Or.inr (List.mem_cons_of_mem _ h)

/-- `jsMax` of a nonempty list is an element. -/
theorem jsMax_mem (l : List ℚ) (h : l ≠ []) : jsMax l ∈ l := by
  match l, h with
  | x :: xs, _ =>
      show xs.foldl max x ∈ x :: xs
      rcases foldl_max_mem xs x with he | he
      · rw [he]; exact List.mem_cons_self x xs
      · exact List.mem_cons_of_mem _ he

/-- `jsMax` bounds every element. -/
theorem le_jsMax (l : List ℚ) (x : ℚ) (hx : x ∈ l) : x ≤ jsMax l := by
  match l, hx with
  | y :: ys, hx =>
      rcases List.mem_cons.mp hx with rfl | hx
      · exact (foldl_max_le_self ys x).1
      · exact (foldl_max_le_self ys y).2 x hx

/-- C9 counterexample: on an empty population the statistics refresh
returns early — `averageFitness` and `bestFitness` are zeroed, but the
trend keeps its old value `[0.5]` (no `0` appended), `diversityIndex`
keeps its stale value `1`, and no `population-updated` event is
emitted, contradicting the claim for the empty case. -/
theorem updateStatistics_empty_population_no_event :
    (updatePopulationStatistics exampleEmptyState 0).2 = [] ∧
    (updatePopulationStatistics exampleEmptyState 0).1.populations.map
      (fun p => p.statistics.fitnessTrend) = [[0.5]] ∧
    (updatePopulationStatistics exampleEmptyState 0).1.populations.map
      (fun p => p.statistics.averageFitness) = [0] ∧
    (updatePopulationStatistics exampleEmptyState 0).1.populations.map
      (fun p => p.statistics.diversityIndex) = [1] ∧
    ¬ ((updatePopulationStatistics exampleEmptyState 0).1.populations.map
        (fun p => p.statistics.fitnessTrend) = [[0.5, 0]] ∧
       (updatePopulationStatistics exampleEmptyState 0).2 = [EventType.populationUpdated]) :=
  ⟨by with_unfolding_all rfl, by with_unfolding_all rfl, by with_unfolding_all rfl,
   by with_unfolding_all rfl, of_decide_eq_true (by with_unfolding_all rfl)⟩

/-- C9 amended: for a population with kernels, `refreshStatistics`
sets `averageFitness` to the mean of `fitness.overall`, `bestFitness`
to their maximum, appends the average to `fitnessTrend` truncated to
the last 20 entries, recomputes `diversityIndex` (distinct checksums
over count) and `activeCount`, and emits `population-updated`; for an
*empty* population it only zeroes `averageFitness` and `bestFitness`
and returns early — no trend append, no diversity or active-count
update, no event. -/
theorem updateStatistics_characterization (s : OntogenesisState) (i : ℕ)
    (pop : KernelPopulation) (h : s.populations.get? i = some pop) :
    (pop.kernels = [] →
      updatePopulationStatistics s i =
        ({ s with populations := s.populations.set i { pop with statistics := { pop.statistics with averageFitness := 0, bestFitness := 0 } } }, [])) ∧
    (pop.kernels ≠ [] →
      ∃ pop1,
        updatePopulationStatistics s i =
          ({ s with populations := s.populations.set i pop1 }, [EventType.populationUpdated]) ∧
        pop1.kernels = pop.kernels ∧
        pop1.statistics.averageFitness =
          (pop.kernels.map (fun k => k.fitness.overall)).sum / (pop.kernels.length : ℚ) ∧
        (∀ k ∈ pop.kernels, k.fitness.overall ≤ pop1.statistics.bestFitness) ∧
        pop1.statistics.bestFitness ∈ pop.kernels.map (fun k => k.fitness.overall) ∧
        pop1.statistics.fitnessTrend =
          (pop.statistics.fitnessTrend ++ [pop1.statistics.averageFitness]).drop
            ((pop.statistics.fitnessTrend ++ [pop1.statistics.averageFitness]).length - 20) ∧
        pop1.statistics.diversityIndex =
          ((pop.kernels.map (fun k => k.genome.checksum)).dedup.length : ℚ) /
            (pop.kernels.length : ℚ) ∧
        pop1.statistics.activeCount =
          (pop.kernels.filter (fun k => k.state == KernelState.ACTIVE)).length) := by
  have h' : s.populations[i]? = some pop := by rw [← List.get?_eq_getElem?]; exact h
  constructor
  · intro he
    simp [updatePopulationStatistics, h', updateStatisticsPop, he]
  · intro hne
    refine ⟨(updateStatisticsPop pop).1, ?_, ?_, ?_, ?_, ?_, ?_, ?_, ?_⟩
    · simp [updatePopulationStatistics, h', updateStatisticsPop, List.isEmpty_iff, hne]
    · simp [updateStatisticsPop, List.isEmpty_iff, hne]
    · simp only [updateStatisticsPop, List.isEmpty_iff, if_neg hne]
      rw [List.sum_eq_foldl]
    · intro k hk
      simp only [updateStatisticsPop, List.isEmpty_iff, if_neg hne]
      exact le_jsMax _ _ (List.mem_map_of_mem _ hk)
    · simp only [updateStatisticsPop, List.isEmpty_iff, if_neg hne]
      exact jsMax_mem _ (by simpa using hne)
    · simp only [updateStatisticsPop, List.isEmpty_iff, if_neg hne]
      split
      · rfl
      · rename_i hlen
        rw [Nat.sub_eq_zero_of_le (by omega), List.drop_zero]
    · simp [updateStatisticsPop, List.isEmpty_iff, hne]
    · simp [updateStatisticsPop, List.isEmpty_iff, hne]

/-- C9 amended, witness: the nonempty branch applied to the concrete
one-kernel population. -/
theorem updateStatistics_characterization_witness :
    exampleNeutralPop.kernels ≠ [] ∧
    (∃ pop1,
      updatePopulationStatistics exampleNeutralState 0 =
        ({ exampleNeutralState with
           populations := exampleNeutralState.populations.set 0 pop1 },
         [EventType.populationUpdated]) ∧
      pop1.kernels = exampleNeutralPop.kernels ∧
      pop1.statistics.averageFitness =
        (exampleNeutralPop.kernels.map (fun k => k.fitness.overall)).sum /
          (exampleNeutralPop.kernels.length : ℚ) ∧
      (∀ k ∈ exampleNeutralPop.kernels, k.fitness.overall ≤ pop1.statistics.bestFitness) ∧
      pop1.statistics.bestFitness ∈
        exampleNeutralPop.kernels.map (fun k => k.fitness.overall) ∧
      pop1.statistics.fitnessTrend =
        (exampleNeutralPop.statistics.fitnessTrend ++ [pop1.statistics.averageFitness]).drop
          ((exampleNeutralPop.statistics.fitnessTrend ++
            [pop1.statistics.averageFitness]).length - 20) ∧
      pop1.statistics.diversityIndex =
        ((exampleNeutralPop.kernels.map (fun k => k.genome.checksum)).dedup.length : ℚ) /
          (exampleNeutralPop.kernels.length : ℚ) ∧
      pop1.statistics.activeCount =
        (exampleNeutralPop.kernels.filter
          (fun k => k.state == KernelState.ACTIVE)).length) :=
  ⟨of_decide_eq_true (by with_unfolding_all rfl),
   (updateStatistics_characterization exampleNeutralState 0 exampleNeutralPop
      (by with_unfolding_all rfl)).2
     (of_decide_eq_true (by with_unfolding_all rfl))⟩

/-- C5 counterexample: `evaluateFitness` stores caller-supplied partial
scores without clamping, so a supplied `performance = 2` leaves the
kernel with `fitness.performance = 2 > 1`: the components do *not* lie
in `[0,1]` for arbitrary caller input. -/
theorem evaluateFitness_stores_out_of_range_scores :
    ((evaluateFitness exampleNeutralState 0 { performance := some 2 } 3).1.map
      (fun f => f.performance)) = some 2 ∧
    ((evaluateFitness exampleNeutralState 0 { performance := some 2 } 3).2.populations.map
      (fun p => p.kernels.map (fun k => k.fitness.performance))) = [[2]] ∧
    ¬ ((2 : ℚ) ≤ 1) :=
  ⟨by with_unfolding_all rfl, by with_unfolding_all rfl,
   of_decide_eq_true (by with_unfolding_all rfl)⟩

/-- C5 amended: on every `evaluateFitness` call `overall` is recomputed
as the fixed weighted sum
`0.30·performance + 0.20·efficiency + 0.20·reliability +
0.15·adaptability + 0.15·innovation` of the updated components, the
evaluation counter is bumped and the timestamp set; the `[0,1]` bound
on the components holds only *conditionally* — whenever the updated
components are in `[0,1]` (i.e. the caller supplies in-range scores),
and then `overall` lies in `[0,1]` as well.  Unconditional bounds fail
(`evaluateFitness_stores_out_of_range_scores`). -/
theorem evaluateFitness_overall_recomputed (s : OntogenesisState) (id now : ℕ)
    (scores : PartialFitness) (k : CognitiveKernel) (h : findKernel s id = some k) :
    ∃ f, (evaluateFitness s id scores now).1 = some f ∧
      f.performance = scores.performance.getD k.fitness.performance ∧
      f.efficiency = scores.efficiency.getD k.fitness.efficiency ∧
      f.reliability = scores.reliability.getD k.fitness.reliability ∧
      f.adaptability = scores.adaptability.getD k.fitness.adaptability ∧
      f.innovation = scores.innovation.getD k.fitness.innovation ∧
      f.overall = 0.30 * f.performance + 0.20 * f.efficiency + 0.20 * f.reliability +
        0.15 * f.adaptability + 0.15 * f.innovation ∧
      f.evaluations = k.fitness.evaluations + 1 ∧ f.lastEvaluated = now ∧
      ((0 ≤ f.performance ∧ f.performance ≤ 1) → (0 ≤ f.efficiency ∧ f.efficiency ≤ 1) →
        (0 ≤ f.reliability ∧ f.reliability ≤ 1) → (0 ≤ f.adaptability ∧ f.adaptability ≤ 1) →
        (0 ≤ f.innovation ∧ f.innovation ≤ 1) → 0 ≤ f.overall ∧ f.overall ≤ 1) := by
  have hov : (applyScores scores now k.fitness).overall =
      0.30 * (applyScores scores now k.fitness).performance +
        0.20 * (applyScores scores now k.fitness).efficiency +
        0.20 * (applyScores scores now k.fitness).reliability +
        0.15 * (applyScores scores now k.fitness).adaptability +
        0.15 * (applyScores scores now k.fitness).innovation := by
    simp only [applyScores, calculateOverallFitness]
    ring
  refine ⟨applyScores scores now k.fitness, ?_, rfl, rfl, rfl, rfl, rfl, hov, rfl, rfl, ?_⟩
  · simp [evaluateFitness, h]
  · intro h1 h2 h3 h4 h5
    rw [hov]
    constructor
    · linarith [h1.1, h2.1, h3.1, h4.1, h5.1]
    · linarith [h1.2, h2.2, h3.2, h4.2, h5.2]

/-- C5 amended, witness: applied to the concrete neutral kernel with
in-range scores. -/
theorem evaluateFitness_overall_recomputed_witness :
    findKernel exampleNeutralState 0 = some exampleNeutralKernel ∧
    (∃ f, (evaluateFitness exampleNeutralState 0 { performance := some 1 } 3).1 = some f ∧
      f.performance = (some (1 : ℚ)).getD exampleNeutralKernel.fitness.performance ∧
      f.efficiency = Option.getD none exampleNeutralKernel.fitness.efficiency ∧
      f.reliability = Option.getD none exampleNeutralKernel.fitness.reliability ∧
      f.adaptability = Option.getD none exampleNeutralKernel.fitness.adaptability ∧
      f.innovation = Option.getD none exampleNeutralKernel.fitness.innovation ∧
      f.overall = 0.30 * f.performance + 0.20 * f.efficiency + 0.20 * f.reliability +
        0.15 * f.adaptability + 0.15 * f.innovation ∧
      f.evaluations = exampleNeutralKernel.fitness.evaluations + 1 ∧ f.lastEvaluated = 3 ∧
      ((0 ≤ f.performance ∧ f.performance ≤ 1) → (0 ≤ f.efficiency ∧ f.efficiency ≤ 1) →
        (0 ≤ f.reliability ∧ f.reliability ≤ 1) → (0 ≤ f.adaptability ∧ f.adaptability ≤ 1) →
        (0 ≤ f.innovation ∧ f.innovation ≤ 1) → 0 ≤ f.overall ∧ f.overall ≤ 1)) :=
  ⟨by with_unfolding_all rfl,
   evaluateFitness_overall_recomputed exampleNeutralState 0 3 { performance := some 1 }
     exampleNeutralKernel (by with_unfolding_all rfl)⟩

/-- C7: when no requested parent id resolves, `breed` returns exactly
the zero result `{offspring: [], successRate: 0, mutationsApplied: 0,
novelGenes: 0}`, leaves the engine state untouched (populations,
archive, `totalKernelsCreated` and the id counter included), consumes
no randomness and emits no event. -/
theorem breed_unresolved_parents_is_noop (s : OntogenesisState) (req : BreedingRequest)
    (rng : Rng) (now : ℕ) (h : ∀ id ∈ req.parents, findKernel s id = none) :
    breed s req rng now =
      ({ offspring := [], successRate := 0, mutationsApplied := 0, novelGenes := 0 },
       s, rng, []) := by
  have hp : req.parents.filterMap (fun id => findKernel s id) = [] :=
    List.filterMap_eq_nil_iff.mpr h
  simp only [breed, hp]
  rfl

/-- C7 witness: a request whose only parent id is unknown. -/
theorem breed_unresolved_parents_is_noop_witness :
    breed exampleNeutralState { parents := [99], method := .crossover, offspringCount := 3 }
      rngZero 7 =
      ({ offspring := [], successRate := 0, mutationsApplied := 0, novelGenes := 0 },
       exampleNeutralState, rngZero, []) :=
  breed_unresolved_parents_is_noop exampleNeutralState
    { parents := [99], method := .crossover, offspringCount := 3 } rngZero 7
    (fun id hid => by
      rcases List.mem_singleton.mp hid with rfl
      with_unfolding_all rfl)

/-- C3: selection never archives an unevaluated kernel.  For every
population and every member kernel with `fitness.evaluations = 0` (and
state other than `ARCHIVED` — populations never hold archived kernels,
since selection removes the kernels it marks in the same call), the
kernel survives `performSelection` unchanged in the kernels list,
regardless of its fitness, and every kernel moved to the archive
originates from a *different*, evaluated member. -/
theorem performSelection_spares_unevaluated (cfg : EvolutionConfig) (pop : KernelPopulation)
    (k : CognitiveKernel) (hk : k ∈ pop.kernels) (hev : k.fitness.evaluations = 0)
    (hst : k.state ≠ KernelState.ARCHIVED) :
    k ∈ (performSelectionPop cfg pop).1.kernels ∧
    ∀ a ∈ (performSelectionPop cfg pop).2,
      ∃ k', k' ∈ pop.kernels ∧ k' ≠ k ∧ 0 < k'.fitness.evaluations ∧ a = markArchived k' := by
  have hpred : archPred cfg k = false := by
    simp [archPred, hev]
  have hsorted : ∀ a : CognitiveKernel, a ∈ sortByFitness pop.kernels ↔ a ∈ pop.kernels := by
    intro a; simp [sortByFitness]
  constructor
  · simp only [performSelectionPop]
    refine List.mem_filter.mpr ⟨?_, by simpa using hst⟩
    exact List.mem_map.mpr ⟨k, (hsorted k).mpr hk, by simp [hpred]⟩
  · intro a ha
    simp only [performSelectionPop] at ha
    obtain ⟨k', hk'mem, rfl⟩ := List.mem_map.mp ha
    have hk'f := List.mem_filter.mp hk'mem
    have hk'pred : archPred cfg k' = true := hk'f.2
    have hk'ev : 0 < k'.fitness.evaluations := by
      have := hk'pred
      simp [archPred] at this
      exact this.2
    refine ⟨k', (hsorted k').mp hk'f.1, ?_, hk'ev, rfl⟩
    intro hkk
    rw [hkk, hpred] at hk'pred
    exact Bool.false_ne_true hk'pred

/-- C3 witness: the concrete unevaluated kernel survives selection. -/
theorem performSelection_spares_unevaluated_witness :
    exampleNeutralKernel ∈
      (performSelectionPop DEFAULT_EVOLUTION_CONFIG exampleNeutralPop).1.kernels ∧
    ∀ a ∈ (performSelectionPop DEFAULT_EVOLUTION_CONFIG exampleNeutralPop).2,
      ∃ k', k' ∈ exampleNeutralPop.kernels ∧ k' ≠ exampleNeutralKernel ∧
        0 < k'.fitness.evaluations ∧ a = markArchived k' :=
  performSelection_spares_unevaluated DEFAULT_EVOLUTION_CONFIG exampleNeutralPop
    exampleNeutralKernel (of_decide_eq_true (by with_unfolding_all rfl))
    (by with_unfolding_all rfl) (of_decide_eq_true (by with_unfolding_all rfl))

/-- C6 counterexample: in the grow step with a single elite member and
a method draw selecting crossover, the produced offspring records
`lineage.breedingMethod = crossover`, not `asexual` as the claim
states — the source only falls back to a single *parent*, keeping the
method. -/
theorem growStep_keeps_crossover_with_single_elite :
    (performBreeding exampleNeutralState 0 rngZero 7).map
        (fun t => t.1.populations.map (fun p => p.kernels.map
          (fun k => k.lineage.breedingMethod))) =
      some [[BreedingMethod.synthetic, BreedingMethod.crossover]] ∧
    BreedingMethod.crossover ≠ BreedingMethod.asexual :=
  ⟨by with_unfolding_all rfl, of_decide_eq_true (by with_unfolding_all rfl)⟩

/-- Every child assembled by the breeding loop records the requested
method in its lineage. -/
theorem breedLoop_method (parents : List CognitiveKernel) (p0 : CognitiveKernel)
    (method : BreedingMethod) (rate : ℚ) (gen now : ℕ) :
    ∀ (n i nid : ℕ) (rng : Rng),
      ∀ k ∈ (breedLoop parents p0 method rate gen now n i nid rng).1,
        k.lineage.breedingMethod = method := by
  intro n
  induction n with
  | zero => intro i nid rng k hk; simp [breedLoop] at hk
  | succ m ih =>
      intro i nid rng k hk
      simp only [breedLoop] at hk
      rcases List.mem_cons.mp hk with rfl | hk
      · rfl
      · exact ih (i + 1) (nid + 1) _ k hk

/-- C6 amended: when the chosen method is crossover but only one
parent resolves (the grow step passes the single elite member), the
offspring is bred by crossing the parent's genome *with itself* and
its `lineage.breedingMethod` records `crossover`; self-crossover
produces exactly the asexual clone of the genome, so only the recorded
method differs from the claim. -/
theorem breed_crossover_single_parent (s : OntogenesisState) (req : BreedingRequest)
    (rng : Rng) (now : ℕ) (p0 : CognitiveKernel)
    (hm : req.method = BreedingMethod.crossover)
    (hp : req.parents.filterMap (fun id => findKernel s id) = [p0]) :
    (∀ k ∈ (breed s req rng now).1.offspring,
      k.lineage.breedingMethod = BreedingMethod.crossover) ∧
    (∀ (g : KernelGenome) (rng2 : Rng), (crossover g g rng2).1 = asexualReproduction g) := by
  constructor
  · intro k hk
    simp only [breed, hp] at hk
    rw [← hm]
    exact breedLoop_method [p0] p0 req.method _ s.globalGeneration now req.offspringCount 0
      s.nextId rng k hk
  · intro g rng2
    simp [crossover, asexualReproduction, List.take_append_drop]

/-- C6 amended, witness: applied to the concrete single-kernel
state. -/
theorem breed_crossover_single_parent_witness :
    (∀ k ∈ (breed exampleNeutralState
        { parents := [0], method := .crossover, offspringCount := 1 } rngZero 7).1.offspring,
      k.lineage.breedingMethod = BreedingMethod.crossover) ∧
    (∀ (g : KernelGenome) (rng2 : Rng), (crossover g g rng2).1 = asexualReproduction g) :=
  breed_crossover_single_parent exampleNeutralState
    { parents := [0], method := .crossover, offspringCount := 1 } rngZero 7
    exampleNeutralKernel rfl (by with_unfolding_all rfl)

/-- `updateFirst` on a list without a match yields `none`. -/
theorem updateFirst_eq_none {α} (p : α → Bool) (f : α → α) :
    ∀ {l : List α}, (∀ x ∈ l, p x = false) → updateFirst p f l = none
  | [], _ => rfl
  | x :: xs, h => by
      have hx : p x = false := h x (List.mem_cons_self x xs)
      simp only [updateFirst, hx, Bool.false_eq_true, if_false]
      rw [updateFirst_eq_none p f (fun y hy => h y (List.mem_cons_of_mem x hy))]
      rfl

/-- `updateFirst` rewrites exactly the element `find?` locates. -/
theorem updateFirst_of_find? {α} (p : α → Bool) (f : α → α) :
    ∀ {l : List α} {a : α}, l.find? p = some a →
      ∃ l1 l2, l = l1 ++ a :: l2 ∧ updateFirst p f l = some (l1 ++ f a :: l2)
  | [], a, h => by simp at h
  | x :: xs, a, h => by
      by_cases hx : p x
      · rw [List.find?_cons_of_pos _ hx] at h
        cases h
        exact ⟨[], xs, by simp, by simp [updateFirst, hx]⟩
      · rw [List.find?_cons_of_neg _ hx] at h
        obtain ⟨l1, l2, he, hu⟩ := updateFirst_of_find? p f h
        refine ⟨x :: l1, l2, by simp [he], ?_⟩
        simp only [updateFirst, hx, Bool.false_eq_true, if_false, hu, Option.map_some]
        simp

/-- `updateFirstPop` on populations without the id yields `none`. -/
theorem updateFirstPop_eq_none (id : ℕ) (f : CognitiveKernel → CognitiveKernel) :
    ∀ {ps : List KernelPopulation},
      (∀ p ∈ ps, ∀ k ∈ p.kernels, k.id ≠ id) → updateFirstPop id f ps = none
  | [], _ => rfl
  | p :: ps, h => by
      have hp : updateFirst (fun k => k.id == id) f p.kernels = none :=
        updateFirst_eq_none _ f (fun k hk => by
          simpa using h p (List.mem_cons_self p ps) k hk)
      simp only [updateFirstPop, hp]
      rw [updateFirstPop_eq_none id f (fun q hq => h q (List.mem_cons_of_mem p hq))]
      rfl

/-- C10: `activateKernel` succeeds on archived kernels.  Unknown ids
and `DEPRECATED` kernels yield `false` with the state untouched; any
other found kernel yields `true`; and for a kernel that sits in the
archive in state `ARCHIVED` while no population holds its id, the call
returns `true`, emits `kernel-activated`, leaves every population
untouched (the kernel joins none of them) and updates the kernel in
place in the archive to state `ACTIVE` with `lastActivated = now`. -/
theorem activateKernel_on_archive (s : OntogenesisState) (id now : ℕ) :
    (findKernel s id = none → activateKernel s id now = (false, s, [])) ∧
    (∀ k, findKernel s id = some k → k.state = KernelState.DEPRECATED →
      activateKernel s id now = (false, s, [])) ∧
    (∀ k, findKernel s id = some k → k.state ≠ KernelState.DEPRECATED →
      (activateKernel s id now).1 = true ∧
      (activateKernel s id now).2.2 = [EventType.kernelActivated]) ∧
    (∀ k, (∀ p ∈ s.populations, ∀ k' ∈ p.kernels, k'.id ≠ id) →
      s.archive.find? (fun x => x.id == id) = some k → k.state = KernelState.ARCHIVED →
      (activateKernel s id now).1 = true ∧
      (activateKernel s id now).2.1.populations = s.populations ∧
      (∃ l1 l2, s.archive = l1 ++ k :: l2 ∧
        (activateKernel s id now).2.1.archive =
          l1 ++ { k with state := KernelState.ACTIVE, lastActivated := now } :: l2) ∧
      (activateKernel s id now).2.2 = [EventType.kernelActivated]) := by
  refine ⟨?_, ?_, ?_, ?_⟩
  · intro hn
    simp [activateKernel, hn]
  · intro k hf hdep
    simp [activateKernel, hf, hdep]
  · intro k hf hne
    simp [activateKernel, hf, hne]
  · intro k hpop harch hstate
    have hpopsome : s.populations.findSome? (fun p => p.kernels.find? (fun k => k.id == id)) =
        none := by
      rw [List.findSome?_eq_none_iff]
      intro p hp
      rw [List.find?_eq_none]
      intro x hx
      simpa using hpop p hp x hx
    have hf : findKernel s id = some k := by
      simp [findKernel, hpopsome, harch]
    have hne : k.state ≠ KernelState.DEPRECATED := by
      rw [hstate]; intro hc; cases hc
    have hupd : updateFirstPop id (fun k => { k with state := .ACTIVE, lastActivated := now })
        s.populations = none := updateFirstPop_eq_none id _ hpop
    obtain ⟨l1, l2, hsplit, hu⟩ :=
      updateFirst_of_find? (fun x : CognitiveKernel => x.id == id)
        (fun k => { k with state := .ACTIVE, lastActivated := now }) harch
    refine ⟨by simp [activateKernel, hf, hne], ?_, ⟨l1, l2, hsplit, ?_⟩, ?_⟩
    · simp [activateKernel, hf, hne, updateKernel, hupd]
    · simp [activateKernel, hf, hne, updateKernel, hupd, hu]
    · simp [activateKernel, hf, hne]

/-- `Evolves` is reflexive. -/
theorem evolves_refl (s : OntogenesisState) : Evolves s s :=
  ⟨⟨[], (List.append_nil _).symm⟩, id⟩

/-- `Evolves` composes. -/
theorem evolves_trans {s1 s2 s3 : OntogenesisState} (h1 : Evolves s1 s2) (h2 : Evolves s2 s3) :
    Evolves s1 s3 := by
  obtain ⟨⟨t1, ht1⟩, hw1⟩ := h1
  obtain ⟨⟨t2, ht2⟩, hw2⟩ := h2
  exact ⟨⟨t1 ++ t2, by rw [ht2, ht1, List.append_assoc]⟩, fun h => hw2 (hw1 h)⟩

/-- An operation that leaves populations and archive unchanged and
does not decrease the id counter evolves the state. -/
theorem evolves_of_frame {s s1 : OntogenesisState}
    (hpop : s1.populations = s.populations) (harch : s1.archive = s.archive)
    (hnid : s.nextId ≤ s1.nextId) : Evolves s s1 := by
  have hids : allIds s1 = allIds s := by
    simp only [allIds, archIdsL, hpop, harch]
  refine ⟨⟨[], by simp [archIdsL, harch]⟩, fun hw => ?_⟩
  obtain ⟨hb, hn, hs⟩ := hw
  refine ⟨fun id hid => lt_of_lt_of_le (hb id (hids ▸ hid)) hnid, hids ▸ hn, ?_⟩
  rw [hpop]; exact hs

/-- `popsIds` of the empty population list. -/
theorem popsIds_nil : popsIds [] = 0 := rfl

/-- `popsIds` of a cons. -/
theorem popsIds_cons (p : KernelPopulation) (ps : List KernelPopulation) :
    popsIds (p :: ps) = ↑(p.kernels.map (fun k => k.id)) + popsIds ps := by
  simp [popsIds]

/-- `popsIds` of an append. -/
theorem popsIds_append (ps qs : List KernelPopulation) :
    popsIds (ps ++ qs) = popsIds ps + popsIds qs := by
  simp [popsIds]

/-- Membership in `popsIds`. -/
theorem mem_popsIds {a : ℕ} : ∀ {ps : List KernelPopulation},
    a ∈ popsIds ps ↔ ∃ p ∈ ps, a ∈ p.kernels.map (fun k => k.id)
  | [] => by simp [popsIds]
  | p :: ps => by
      rw [popsIds_cons, Multiset.mem_add, mem_popsIds]
      constructor
      · rintro (h | ⟨q, hq, hmem⟩)
        · exact ⟨p, List.mem_cons_self p ps, by exact_mod_cast h⟩
        · exact ⟨q, List.mem_cons_of_mem p hq, hmem⟩
      · rintro ⟨q, hq, hmem⟩
        rcases List.mem_cons.mp hq with rfl | hq
        · exact Or.inl (by exact_mod_cast hmem)
        · exact Or.inr ⟨q, hq, hmem⟩

/-- Replacing population `i` exchanges its id contribution. -/
theorem popsIds_set : ∀ (ps : List KernelPopulation) (i : ℕ) (pop pop1 : KernelPopulation),
    ps.get? i = some pop →
    popsIds (ps.set i pop1) + ↑(pop.kernels.map (fun k => k.id)) =
      popsIds ps + ↑(pop1.kernels.map (fun k => k.id))
  | [], i, pop, pop1, h => by simp at h
  | p :: ps, 0, pop, pop1, h => by
      cases h
      simp only [List.set, popsIds_cons]
      abel
  | p :: ps, i + 1, pop, pop1, h => by
      simp only [List.set, popsIds_cons]
      rw [add_assoc, add_assoc, popsIds_set ps i pop pop1 h]

/-- The invariant holds in the initial state. -/
theorem stateWF_initial (cfg : EvolutionConfig) : StateWF (createInitialState cfg) := by
  refine ⟨?_, ?_, ?_⟩ <;> simp [StateWF, allIds, popsIds, archIdsL, createInitialState]

/-- The fields of an assembled child that do not depend on the
genome draws. -/
theorem breedChild_fields (parents : List CognitiveKernel) (p0 : CognitiveKernel)
    (method : BreedingMethod) (rate : ℚ) (gen now i nid : ℕ) (rng : Rng) :
    (breedChild parents p0 method rate gen now i nid rng).1.id = nid ∧
    (breedChild parents p0 method rate gen now i nid rng).1.state = KernelState.DORMANT :=
  ⟨rfl, rfl⟩

/-- The breeding loop advances the id counter by the child count,
hands out consecutive ids and creates `DORMANT` children. -/
theorem breedLoop_spec (parents : List CognitiveKernel) (p0 : CognitiveKernel)
    (method : BreedingMethod) (rate : ℚ) (gen now : ℕ) :
    ∀ (n i nid : ℕ) (rng : Rng),
      (breedLoop parents p0 method rate gen now n i nid rng).2.2.2.1 = nid + n ∧
      (breedLoop parents p0 method rate gen now n i nid rng).1.map (fun k => k.id) =
        List.range' nid n ∧
      ∀ k ∈ (breedLoop parents p0 method rate gen now n i nid rng).1,
        k.state = KernelState.DORMANT := by
  intro n
  induction n with
  | zero =>
      intro i nid rng
      exact ⟨rfl, rfl, by intro k hk; simp [breedLoop] at hk⟩
  | succ m ih =>
      intro i nid rng
      obtain ⟨h1, h2, h3⟩ :=
        ih (i + 1) (nid + 1) (breedChild parents p0 method rate gen now i nid rng).2
      refine ⟨?_, ?_, ?_⟩
      · show (breedLoop parents p0 method rate gen now m (i + 1) (nid + 1)
            (breedChild parents p0 method rate gen now i nid rng).2).2.2.2.1 = nid + (m + 1)
        omega
      · show ((breedChild parents p0 method rate gen now i nid rng).1 ::
            (breedLoop parents p0 method rate gen now m (i + 1) (nid + 1)
              (breedChild parents p0 method rate gen now i nid rng).2).1).map
              (fun k => k.id) = List.range' nid (m + 1)
        rw [List.map_cons, h2,
          (breedChild_fields parents p0 method rate gen now i nid rng).1]
        rw [List.range'_succ]
      · intro k hk
        rcases List.mem_cons.mp hk with rfl | hk
        · exact (breedChild_fields parents p0 method rate gen now i nid rng).2
        · exact h3 k hk

/-- `breed` never touches populations or archive and only advances the
id counter. -/
theorem breed_frame (s : OntogenesisState) (req : BreedingRequest) (rng : Rng) (now : ℕ) :
    (breed s req rng now).2.1.populations = s.populations ∧
    (breed s req rng now).2.1.archive = s.archive ∧
    s.nextId ≤ (breed s req rng now).2.1.nextId := by
  rcases hp : req.parents.filterMap (fun id => findKernel s id) with _ | ⟨p0, rest⟩
  · simp [breed, hp]
  · refine ⟨by simp [breed, hp], by simp [breed, hp], ?_⟩
    show s.nextId ≤ (breed s req rng now).2.1.nextId
    simp only [breed, hp]
    rw [(breedLoop_spec (p0 :: rest) p0 req.method
      (req.mutationRate.getD s.config.baseMutationRate) s.globalGeneration now
      req.offspringCount 0 s.nextId rng).1]
    exact Nat.le_add_right _ _

/-- Every offspring of a `breed` call carries a fresh id (at or above
the old counter, below the new one) and starts `DORMANT`. -/
theorem breed_offspring_fresh (s : OntogenesisState) (req : BreedingRequest) (rng : Rng)
    (now : ℕ) :
    ∀ k ∈ (breed s req rng now).1.offspring,
      s.nextId ≤ k.id ∧ k.id < (breed s req rng now).2.1.nextId ∧
        k.state = KernelState.DORMANT := by
  rcases hp : req.parents.filterMap (fun id => findKernel s id) with _ | ⟨p0, rest⟩
  · intro k hk
    simp [breed, hp, emptyBreedingResult] at hk
  · intro k hk
    have hk' : k ∈ (breedLoop (p0 :: rest) p0 req.method
        (req.mutationRate.getD s.config.baseMutationRate) s.globalGeneration now
        req.offspringCount 0 s.nextId rng).1 := by
      simpa only [breed, hp] using hk
    obtain ⟨h1, h2, h3⟩ := breedLoop_spec (p0 :: rest) p0 req.method
      (req.mutationRate.getD s.config.baseMutationRate) s.globalGeneration now
      req.offspringCount 0 s.nextId rng
    have hid : k.id ∈ List.range' s.nextId req.offspringCount := by
      rw [← h2]
      exact List.mem_map_of_mem _ hk'
    have hb := List.mem_range'_1.mp hid
    refine ⟨hb.1, ?_, h3 k hk'⟩
    show k.id < (breed s req rng now).2.1.nextId
    simp only [breed, hp]
    rw [h1]
    exact hb.2

/-- `createKernel` evolves the state (it only bumps counters). -/
theorem evolves_create (s : OntogenesisState) (tmpl : KernelTemplate)
    (cg : Option PartialGenome) (now : ℕ) : Evolves s (createKernel s tmpl cg now).2.1 :=
  evolves_of_frame rfl rfl (Nat.le_succ _)

/-- An external `breed` call evolves the state. -/
theorem evolves_breedOp (s : OntogenesisState) (req : BreedingRequest) (rng : Rng) (now : ℕ) :
    Evolves s (breed s req rng now).2.1 :=
  evolves_of_frame (breed_frame s req rng now).1 (breed_frame s req rng now).2.1
    (breed_frame s req rng now).2.2

/-- The cycle bookkeeping evolves the state. -/
theorem evolves_cycleEnd (s : OntogenesisState) (now : ℕ) :
    Evolves s { s with globalGeneration := s.globalGeneration + 1, lastEvolutionCycle := now } :=
  evolves_of_frame rfl rfl le_rfl

/-- Starting or stopping evolution evolves the state. -/
theorem evolves_startStop (s : OntogenesisState) (b : Bool) :
    Evolves s { s with isEvolving := b } :=
  evolves_of_frame rfl rfl le_rfl

/-- The emergence scan evolves the state (it only appends events). -/
theorem evolves_emergence (s : OntogenesisState) (now : ℕ) :
    Evolves s (checkForEmergence s now).1 :=
  evolves_of_frame rfl rfl le_rfl

/-- `updateFirst` preserves any projection the update function
preserves. -/
theorem updateFirst_map_eq {α β} (p : α → Bool) (f : α → α) (g : α → β)
    (hg : ∀ x, g (f x) = g x) :
    ∀ {l l' : List α}, updateFirst p f l = some l' → l'.map g = l.map g
  | [], _, h => by simp [updateFirst] at h
  | x :: xs, l', h => by
      by_cases hx : p x
      · simp only [updateFirst, hx, if_true] at h
        cases h
        simp [hg]
      · simp only [updateFirst, hx, Bool.false_eq_true, if_false] at h
        rcases hu : updateFirst p f xs with _ | xs'
        · rw [hu] at h; cases h
        · rw [hu] at h
          cases h
          simp only [List.map_cons]
          rw [updateFirst_map_eq p f g hg hu]

/-- Every element after `updateFirst` is an original element or the
image of one. -/
theorem updateFirst_mem_or {α} (p : α → Bool) (f : α → α) :
    ∀ {l l' : List α}, updateFirst p f l = some l' →
      ∀ x ∈ l', x ∈ l ∨ ∃ y ∈ l, x = f y
  | [], _, h => by simp [updateFirst] at h
  | z :: xs, l', h => by
      by_cases hz : p z
      · simp only [updateFirst, hz, if_true] at h
        cases h
        intro x hx
        rcases List.mem_cons.mp hx with rfl | hx
        · exact Or.inr ⟨z, List.mem_cons_self z xs, rfl⟩
        · exact Or.inl (List.mem_cons_of_mem z hx)
      · simp only [updateFirst, hz, Bool.false_eq_true, if_false] at h
        rcases hu : updateFirst p f xs with _ | xs'
        · rw [hu] at h; cases h
        · rw [hu] at h
          cases h
          intro x hx
          rcases List.mem_cons.mp hx with rfl | hx
          · exact Or.inl (List.mem_cons_self x xs)
          · rcases updateFirst_mem_or p f hu x hx with hm | ⟨y, hy, he⟩
            · exact Or.inl (List.mem_cons_of_mem z hm)
            · exact Or.inr ⟨y, List.mem_cons_of_mem z hy, he⟩

/-- `updateFirstPop` preserves the multiset of owned kernel ids when
the update preserves ids. -/
theorem updateFirstPop_popsIds (id : ℕ) (f : CognitiveKernel → CognitiveKernel)
    (hf : ∀ k, (f k).id = k.id) :
    ∀ {ps ps' : List KernelPopulation}, updateFirstPop id f ps = some ps' →
      popsIds ps' = popsIds ps
  | [], _, h => by simp [updateFirstPop] at h
  | p :: ps, ps', h => by
      simp only [updateFirstPop] at h
      rcases hu : updateFirst (fun k => k.id == id) f p.kernels with _ | ks
      · rw [hu] at h
        rcases hr : updateFirstPop id f ps with _ | ps''
        · rw [hr] at h; cases h
        · rw [hr] at h
          cases h
          rw [popsIds_cons, popsIds_cons, updateFirstPop_popsIds id f hf hr]
      · rw [hu] at h
        cases h
        rw [popsIds_cons, popsIds_cons]
        congr 1
        exact congrArg _ (updateFirst_map_eq _ f (fun k => k.id) hf hu)

/-- `updateFirstPop` preserves the no-archived-kernel invariant when
the update cannot introduce `ARCHIVED`. -/
theorem updateFirstPop_states (id : ℕ) (f : CognitiveKernel → CognitiveKernel)
    (hf : ∀ k, k.state ≠ KernelState.ARCHIVED → (f k).state ≠ KernelState.ARCHIVED) :
    ∀ {ps ps' : List KernelPopulation}, updateFirstPop id f ps = some ps' →
      (∀ p ∈ ps, ∀ k ∈ p.kernels, k.state ≠ KernelState.ARCHIVED) →
      ∀ p ∈ ps', ∀ k ∈ p.kernels, k.state ≠ KernelState.ARCHIVED
  | [], _, h => by simp [updateFirstPop] at h
  | p :: ps, ps', h => by
      simp only [updateFirstPop] at h
      rcases hu : updateFirst (fun k => k.id == id) f p.kernels with _ | ks
      · rw [hu] at h
        rcases hr : updateFirstPop id f ps with _ | ps''
        · rw [hr] at h; cases h
        · rw [hr] at h
          cases h
          intro hall q hq k hk
          rcases List.mem_cons.mp hq with rfl | hq
          · exact hall q (List.mem_cons_self q ps) k hk
          · exact updateFirstPop_states id f hf hr
              (fun r hr' => hall r (List.mem_cons_of_mem p hr')) q hq k hk
      · rw [hu] at h
        cases h
        intro hall q hq k hk
        rcases List.mem_cons.mp hq with rfl | hq
        · rcases updateFirst_mem_or _ f hu k hk with hm | ⟨y, hy, rfl⟩
          · exact hall p (List.mem_cons_self p ps) k hm
          · exact hf y (hall p (List.mem_cons_self p ps) y hy)
        · exact hall q (List.mem_cons_of_mem p hq) k hk

/-- `updateKernel` evolves the state whenever the update preserves the
kernel id and cannot introduce `ARCHIVED`. -/
theorem evolves_updateKernel (s : OntogenesisState) (id : ℕ)
    (f : CognitiveKernel → CognitiveKernel) (hfid : ∀ k, (f k).id = k.id)
    (hfstate : ∀ k, k.state ≠ KernelState.ARCHIVED → (f k).state ≠ KernelState.ARCHIVED) :
    Evolves s (updateKernel s id f) := by
  rcases hu : updateFirstPop id f s.populations with _ | ps'
  · rcases ha : updateFirst (fun k => k.id == id) f s.archive with _ | arch'
    · have : updateKernel s id f = { s with archive := s.archive } := by
        simp [updateKernel, hu, ha]
      rw [this]
      exact evolves_of_frame rfl rfl le_rfl
    · have harch : arch'.map (fun k => k.id) = s.archive.map (fun k => k.id) :=
        updateFirst_map_eq _ f (fun k => k.id) hfid ha
      have hupd : updateKernel s id f = { s with archive := arch' } := by
        simp [updateKernel, hu, ha]
      rw [hupd]
      have hids : allIds { s with archive := arch' } = allIds s := by
        simp only [allIds, archIdsL]
        rw [harch]
      refine ⟨⟨[], by simp [archIdsL, harch]⟩, fun ⟨hb, hn, hs⟩ => ?_⟩
      exact ⟨fun i hi => hb i (hids ▸ hi), hids ▸ hn, hs⟩
  · have hupd : updateKernel s id f = { s with populations := ps' } := by
      simp [updateKernel, hu]
    rw [hupd]
    have hids : allIds { s with populations := ps' } = allIds s := by
      simp only [allIds, archIdsL]
      rw [updateFirstPop_popsIds id f hfid hu]
    refine ⟨⟨[], by simp [archIdsL]⟩, fun ⟨hb, hn, hs⟩ => ?_⟩
    exact ⟨fun i hi => hb i (hids ▸ hi), hids ▸ hn,
      updateFirstPop_states id f hfstate hu hs⟩

/-- `evaluateFitness` evolves the state. -/
theorem evolves_evalOp (s : OntogenesisState) (id : ℕ) (scores : PartialFitness) (now : ℕ) :
    Evolves s (evaluateFitness s id scores now).2 := by
  rcases hf : findKernel s id with _ | k
  · simp only [evaluateFitness, hf]
    exact evolves_refl s
  · simp only [evaluateFitness, hf]
    exact evolves_updateKernel s id _ (fun k => rfl) (fun k h => h)

/-- `activateKernel` evolves the state. -/
theorem evolves_activate (s : OntogenesisState) (id now : ℕ) :
    Evolves s (activateKernel s id now).2.1 := by
  rcases hf : findKernel s id with _ | k
  · simp only [activateKernel, hf]
    exact evolves_refl s
  · by_cases hd : k.state = KernelState.DEPRECATED
    · simp only [activateKernel, hf, hd, if_pos rfl]
      exact evolves_refl s
    · simp only [activateKernel, hf, if_neg hd]
      exact evolves_updateKernel s id _ (fun k => rfl)
        (fun k _ => by intro hc; cases hc)

/-- `deprecateKernel` evolves the state. -/
theorem evolves_deprecate (s : OntogenesisState) (id : ℕ) :
    Evolves s (deprecateKernel s id).2.1 := by
  rcases hf : findKernel s id with _ | k
  · simp only [deprecateKernel, hf]
    exact evolves_refl s
  · simp only [deprecateKernel, hf]
    exact evolves_updateKernel s id _ (fun k => rfl)
      (fun k _ => by intro hc; cases hc)

/-- Replacing population `i` by one with the same kernel list evolves
the state. -/
theorem evolves_set_same_kernels (s : OntogenesisState) (i : ℕ) (pop pop1 : KernelPopulation)
    (hget : s.populations.get? i = some pop) (hker : pop1.kernels = pop.kernels) :
    Evolves s { s with populations := s.populations.set i pop1 } := by
  have hids : allIds { s with populations := s.populations.set i pop1 } = allIds s := by
    simp only [allIds, archIdsL]
    congr 1
    have h := popsIds_set s.populations i pop pop1 hget
    rw [hker] at h
    exact add_right_cancel h
  refine ⟨⟨[], by simp [archIdsL]⟩, fun ⟨hb, hn, hs⟩ => ?_⟩
  refine ⟨fun a ha => hb a (hids ▸ ha), hids ▸ hn, ?_⟩
  intro p hp k hk
  rcases List.mem_or_eq_of_mem_set hp with hp' | rfl
  · exact hs p hp' k hk
  · exact hs pop (List.get?_mem hget) k (hker ▸ hk)

/-- The statistics refresh never touches the kernel list. -/
theorem updateStatisticsPop_kernels (pop : KernelPopulation) :
    (updateStatisticsPop pop).1.kernels = pop.kernels := by
  simp only [updateStatisticsPop]
  split <;> rfl

/-- The statistics phase evolves the state. -/
theorem evolves_statsPhase (s : OntogenesisState) (i : ℕ) :
    Evolves s (updatePopulationStatistics s i).1 := by
  rcases hget : s.populations.get? i with _ | pop
  · simp only [updatePopulationStatistics, hget]
    exact evolves_refl s
  · simp only [updatePopulationStatistics, hget]
    show Evolves s { s with populations := s.populations.set i (updateStatisticsPop pop).1 }
    exact evolves_set_same_kernels s i pop _ hget (updateStatisticsPop_kernels pop)

/-- The generation bump evolves the state. -/
theorem evolves_genIncr (s : OntogenesisState) (i : ℕ) :
    Evolves s (popGenerationIncr s i) := by
  rcases hget : s.populations.get? i with _ | pop
  · simp only [popGenerationIncr, hget]
    exact evolves_refl s
  · simp only [popGenerationIncr, hget]
    exact evolves_set_same_kernels s i pop _ hget rfl

/-- Marking-then-filtering of the selection phase equals filtering out
the kernels headed for the archive, provided the population held no
archived kernel. -/
theorem mark_filter_eq (cfg : EvolutionConfig) :
    ∀ (l : List CognitiveKernel), (∀ k ∈ l, k.state ≠ KernelState.ARCHIVED) →
      ((l.map (fun k => if archPred cfg k then markArchived k else k)).filter
        (fun k => decide (k.state ≠ KernelState.ARCHIVED))) =
      l.filter (fun k => !(archPred cfg k))
  | [], _ => rfl
  | x :: xs, hl => by
      have hx : x.state ≠ KernelState.ARCHIVED := hl x (List.mem_cons_self x xs)
      have ih := mark_filter_eq cfg xs (fun k hk => hl k (List.mem_cons_of_mem x hk))
      by_cases hp : archPred cfg x
      · have hq : ¬ (decide ((markArchived x).state ≠ KernelState.ARCHIVED) = true) := by
          simp [markArchived]
        have hr : ¬ ((!(archPred cfg x)) = true) := by simp [hp]
        rw [List.map_cons,
          if_pos hp,
          List.filter_cons_of_neg
            (p := fun k : CognitiveKernel => decide (k.state ≠ KernelState.ARCHIVED)) hq,
          List.filter_cons_of_neg
            (p := fun k : CognitiveKernel => !(archPred cfg k)) hr]
        exact ih
      · have hq : decide (x.state ≠ KernelState.ARCHIVED) = true := decide_eq_true hx
        have hf : archPred cfg x = false := by
          revert hp; cases archPred cfg x <;> simp
        have hr : (!(archPred cfg x)) = true := by rw [hf]; rfl
        rw [List.map_cons,
          if_neg hp,
          List.filter_cons_of_pos
            (p := fun k : CognitiveKernel => decide (k.state ≠ KernelState.ARCHIVED)) hq,
          List.filter_cons_of_pos
            (p := fun k : CognitiveKernel => !(archPred cfg k)) hr, ih]

/-- The kernels of every population produced by the selection phase
are unarchived. -/
theorem performSelectionPop_states (cfg : EvolutionConfig) (pop : KernelPopulation) :
    ∀ k ∈ (performSelectionPop cfg pop).1.kernels, k.state ≠ KernelState.ARCHIVED := by
  intro k hk
  simp only [performSelectionPop] at hk
  exact of_decide_eq_true (List.mem_filter.mp hk).2

/-- Selection redistributes the population's kernel ids between the
surviving list and the archived list. -/
theorem performSelectionPop_ids (cfg : EvolutionConfig) (pop : KernelPopulation)
    (hstates : ∀ k ∈ pop.kernels, k.state ≠ KernelState.ARCHIVED) :
    (↑((performSelectionPop cfg pop).1.kernels.map (fun k => k.id)) : Multiset ℕ) +
      ↑((performSelectionPop cfg pop).2.map (fun k => k.id)) =
      ↑(pop.kernels.map (fun k => k.id)) := by
  have hsorted : List.Perm (sortByFitness pop.kernels) pop.kernels := List.mergeSort_perm _ _
  have hstates' : ∀ k ∈ sortByFitness pop.kernels, k.state ≠ KernelState.ARCHIVED :=
    fun k hk => hstates k (hsorted.subset hk)
  have e1 : (performSelectionPop cfg pop).1.kernels =
      (sortByFitness pop.kernels).filter (fun k => !(archPred cfg k)) := by
    show (((sortByFitness pop.kernels).map
        (fun k => if archPred cfg k then markArchived k else k)).filter
          (fun k => decide (k.state ≠ KernelState.ARCHIVED))) =
      (sortByFitness pop.kernels).filter (fun k => !(archPred cfg k))
    exact mark_filter_eq cfg _ hstates'
  have e2 : (performSelectionPop cfg pop).2 =
      ((sortByFitness pop.kernels).filter (archPred cfg)).map markArchived := rfl
  have hcomp : ((fun k : CognitiveKernel => k.id) ∘ markArchived) = fun k => k.id := rfl
  rw [e1, e2, List.map_map, hcomp, Multiset.coe_add, ← List.map_append]
  apply Multiset.coe_eq_coe.mpr
  apply List.Perm.map
  exact (List.perm_append_comm.trans
    (List.filter_append_perm (archPred cfg) (sortByFitness pop.kernels))).trans hsorted

/-- The selection phase evolves the state. -/
theorem evolves_selectPhase (s : OntogenesisState) (i : ℕ) :
    Evolves s (performSelection s i) := by
  rcases hget : s.populations.get? i with _ | pop
  · simp only [performSelection, hget]
    exact evolves_refl s
  · simp only [performSelection, hget]
    show Evolves s { s with
      populations := s.populations.set i (performSelectionPop s.config pop).1
      archive := s.archive ++ (performSelectionPop s.config pop).2 }
    refine ⟨⟨(performSelectionPop s.config pop).2.map (fun k => k.id),
      by simp [archIdsL]⟩, fun ⟨hb, hn, hs⟩ => ?_⟩
    have hpopstates : ∀ k ∈ pop.kernels, k.state ≠ KernelState.ARCHIVED :=
      hs pop (List.get?_mem hget)
    have key := popsIds_set s.populations i pop (performSelectionPop s.config pop).1 hget
    have key2 := performSelectionPop_ids s.config pop hpopstates
    have hcancel : allIds { s with
        populations := s.populations.set i (performSelectionPop s.config pop).1
        archive := s.archive ++ (performSelectionPop s.config pop).2 } +
          ↑(pop.kernels.map (fun k => k.id)) =
        allIds s + ↑(pop.kernels.map (fun k => k.id)) := by
      simp only [allIds, archIdsL, List.map_append, ← Multiset.coe_add]
      calc popsIds (s.populations.set i (performSelectionPop s.config pop).1) +
            ((↑(s.archive.map (fun k => k.id)) : Multiset ℕ) +
              ↑((performSelectionPop s.config pop).2.map (fun k => k.id))) +
            ↑(pop.kernels.map (fun k => k.id))
          = popsIds (s.populations.set i (performSelectionPop s.config pop).1) +
              ↑(pop.kernels.map (fun k => k.id)) +
              ↑(s.archive.map (fun k => k.id)) +
              ↑((performSelectionPop s.config pop).2.map (fun k => k.id)) := by abel
        _ = popsIds s.populations +
              ↑((performSelectionPop s.config pop).1.kernels.map (fun k => k.id)) +
              ↑(s.archive.map (fun k => k.id)) +
              ↑((performSelectionPop s.config pop).2.map (fun k => k.id)) := by rw [key]
        _ = popsIds s.populations + ↑(s.archive.map (fun k => k.id)) +
              (↑((performSelectionPop s.config pop).1.kernels.map (fun k => k.id)) +
                ↑((performSelectionPop s.config pop).2.map (fun k => k.id))) := by abel
        _ = popsIds s.populations + ↑(s.archive.map (fun k => k.id)) +
              ↑(pop.kernels.map (fun k => k.id)) := by rw [key2]
    have hids := add_right_cancel hcancel
    refine ⟨fun a ha => hb a (hids ▸ ha), hids ▸ hn, ?_⟩
    intro p hp k hk
    rcases List.mem_or_eq_of_mem_set hp with hp' | rfl
    · exact hs p hp' k hk
    · exact performSelectionPop_states s.config pop k hk

/-- Appending a fresh offspring of a `breed` call to a population
evolves the state. -/
theorem evolves_push_offspring (s : OntogenesisState) (i : ℕ) (req : BreedingRequest)
    (rng2 : Rng) (now : ℕ) (child : CognitiveKernel) (rest : List CognitiveKernel)
    (ho : (breed s req rng2 now).1.offspring = child :: rest) :
    Evolves s (pushKernel (breed s req rng2 now).2.1 i child) := by
  obtain ⟨hfp, hfa, hfn⟩ := breed_frame s req rng2 now
  obtain ⟨hc1, hc2, hc3⟩ := breed_offspring_fresh s req rng2 now child
    (ho ▸ List.mem_cons_self child rest)
  rcases hget : (breed s req rng2 now).2.1.populations.get? i with _ | pop
  · simp only [pushKernel, hget]
    exact evolves_breedOp s req rng2 now
  · simp only [pushKernel, hget]
    refine ⟨⟨[], by simp [archIdsL, hfa]⟩, fun hWF => ?_⟩
    have hWFsb := (evolves_breedOp s req rng2 now).2 hWF
    obtain ⟨hb, hn, hs⟩ := hWFsb
    have hnew : allIds { (breed s req rng2 now).2.1 with
        populations := (breed s req rng2 now).2.1.populations.set i
          { pop with
            kernels := pop.kernels ++ [child]
            statistics := { pop.statistics with
              totalCreated := pop.statistics.totalCreated + 1 } } } =
        allIds (breed s req rng2 now).2.1 + {child.id} := by
      simp only [allIds, archIdsL]
      have key := popsIds_set (breed s req rng2 now).2.1.populations i pop
        { pop with
          kernels := pop.kernels ++ [child]
          statistics := { pop.statistics with
            totalCreated := pop.statistics.totalCreated + 1 } } hget
      simp only [List.map_append, List.map_cons, List.map_nil] at key
      rw [← Multiset.coe_add] at key
      have key' := add_right_cancel
        (key.trans (by abel : popsIds (breed s req rng2 now).2.1.populations +
          (↑(pop.kernels.map (fun k => k.id)) + ↑([child.id] : List ℕ)) =
          popsIds (breed s req rng2 now).2.1.populations +
            ↑([child.id] : List ℕ) + ↑(pop.kernels.map (fun k => k.id))))
      rw [key']
      have hsing : (↑([child.id] : List ℕ) : Multiset ℕ) = {child.id} := rfl
      rw [hsing]
      abel
    have hfresh : child.id ∉ allIds (breed s req rng2 now).2.1 := by
      have hids : allIds (breed s req rng2 now).2.1 = allIds s := by
        simp only [allIds, archIdsL, hfp, hfa]
      rw [hids]
      intro hmem
      exact absurd (hWF.1 child.id hmem) (not_lt.mpr hc1)
    refine ⟨?_, ?_, ?_⟩
    · intro a ha
      rw [hnew] at ha
      rcases Multiset.mem_add.mp ha with ha | ha
      · exact hb a ha
      · rw [Multiset.mem_singleton.mp ha]
        exact hc2
    · rw [hnew, Multiset.nodup_add]
      refine ⟨hn, Multiset.nodup_singleton _, ?_⟩
      rw [Multiset.disjoint_left]
      intro a ha hsing
      rw [Multiset.mem_singleton.mp hsing] at ha
      exact hfresh ha
    · intro p hp k hk
      rcases List.mem_or_eq_of_mem_set hp with hp' | rfl
      · exact hs p hp' k hk
      · rcases List.mem_append.mp hk with hk' | hk'
        · exact hs pop (List.get?_mem hget) k hk'
        · rw [List.mem_singleton.mp hk', hc3]
          intro hcon; cases hcon

/-- One breeding slot evolves the state (when it does not throw). -/
theorem evolves_breedingSlot {s : OntogenesisState} {i : ℕ}
    {elite : List CognitiveKernel} {rng : Rng} {now : ℕ}
    {out : OntogenesisState × Rng × List EventType}
    (h : breedingSlot s i elite rng now = some out) : Evolves s out.1 := by
  simp only [breedingSlot] at h
  split at h
  · exact absurd h (by simp)
  · rename_i parents heq
    split at h
    · rename_i ho
      cases h
      exact evolves_breedOp s _ _ now
    · rename_i child rest ho
      cases h
      exact evolves_push_offspring s i _ _ now child rest ho

/-- Any number of breeding slots evolves the state. -/
theorem evolves_breedingSlots (i : ℕ) (elite : List CognitiveKernel) (now : ℕ) :
    ∀ (n : ℕ) (s : OntogenesisState) (rng : Rng),
      Evolves s (breedingSlots i elite now n s rng).1 := by
  intro n
  induction n with
  | zero => intro s rng; exact evolves_refl s
  | succ m ih =>
      intro s rng
      rcases hs : breedingSlot s i elite rng now with _ | out
      · simp only [breedingSlots, hs]
        exact evolves_refl s
      · simp only [breedingSlots, hs]
        exact evolves_trans (evolves_breedingSlot hs) (ih out.1 out.2.1)

/-- The breeding phase — every prefix of it, including the state an
aborting `TypeError` leaves — evolves the state. -/
theorem evolves_breedPhase (s : OntogenesisState) (i : ℕ) (rng : Rng) (now n : ℕ) :
    Evolves s (performBreedingUpTo s i rng now n).1 := by
  rcases hget : s.populations.get? i with _ | pop
  · simp only [performBreedingUpTo, hget]
    exact evolves_refl s
  · simp only [performBreedingUpTo, hget]
    split
    · exact evolves_refl s
    · exact evolves_breedingSlots i _ now _ s rng

/-- The founder loop only bumps counters and hands out consecutive
fresh `DORMANT` kernels. -/
theorem initFounders_spec (template : KernelTemplate) (now : ℕ) :
    ∀ (n : ℕ) (s : OntogenesisState),
      (initFounders template now n s).2.1.populations = s.populations ∧
      (initFounders template now n s).2.1.archive = s.archive ∧
      (initFounders template now n s).2.1.nextId = s.nextId + n ∧
      (initFounders template now n s).1.map (fun k => k.id) = List.range' s.nextId n ∧
      ∀ k ∈ (initFounders template now n s).1, k.state = KernelState.DORMANT := by
  intro n
  induction n with
  | zero =>
      intro s
      exact ⟨rfl, rfl, rfl, rfl, by intro k hk; simp [initFounders] at hk⟩
  | succ m ih =>
      intro s
      obtain ⟨h1, h2, h3, h4, h5⟩ := ih (createKernel s template none now).2.1
      refine ⟨h1, h2, ?_, ?_, ?_⟩
      · show (initFounders template now m (createKernel s template none now).2.1).2.1.nextId =
          s.nextId + (m + 1)
        rw [h3]
        show s.nextId + 1 + m = s.nextId + (m + 1)
        omega
      · show ((createKernel s template none now).1 ::
            (initFounders template now m (createKernel s template none now).2.1).1).map
            (fun k => k.id) = List.range' s.nextId (m + 1)
        rw [List.map_cons, h4, List.range'_succ]
        rfl
      · intro k hk
        rcases List.mem_cons.mp hk with rfl | hk
        · rfl
        · exact h5 k hk

/-- Appending one population of fresh, unarchived kernels evolves the
state. -/
theorem evolves_append_pop (s : OntogenesisState) (pop1 : KernelPopulation)
    (s1 : OntogenesisState)
    (hpop : s1.populations = s.populations ++ [pop1])
    (harch : s1.archive = s.archive)
    (hnid : s.nextId ≤ s1.nextId)
    (hids : ∀ a ∈ pop1.kernels.map (fun k => k.id), s.nextId ≤ a ∧ a < s1.nextId)
    (hnodup : (pop1.kernels.map (fun k => k.id)).Nodup)
    (hstates : ∀ k ∈ pop1.kernels, k.state ≠ KernelState.ARCHIVED) :
    Evolves s s1 := by
  have hall : allIds s1 = allIds s + ↑(pop1.kernels.map (fun k => k.id)) := by
    simp only [allIds, archIdsL, hpop, harch, popsIds_append, popsIds_cons, popsIds_nil]
    abel
  refine ⟨⟨[], by simp [archIdsL, harch]⟩, fun ⟨hb, hn, hs⟩ => ?_⟩
  refine ⟨?_, ?_, ?_⟩
  · intro a ha
    rw [hall] at ha
    rcases Multiset.mem_add.mp ha with ha | ha
    · exact lt_of_lt_of_le (hb a ha) hnid
    · exact (hids a (by exact_mod_cast ha)).2
  · rw [hall, Multiset.nodup_add]
    refine ⟨hn, by exact_mod_cast hnodup, ?_⟩
    rw [Multiset.disjoint_left]
    intro a ha hmem
    have h1 := hb a ha
    have h2 := (hids a (by exact_mod_cast hmem)).1
    omega
  · intro p hp k hk
    rw [hpop] at hp
    rcases List.mem_append.mp hp with hp1 | hp1
    · exact hs p hp1 k hk
    · rw [List.mem_singleton.mp hp1] at hk
      exact hstates k hk

/-- Seeding one population evolves the state. -/
theorem evolves_initOnePopulation (tp : KernelType) (now : ℕ) (s : OntogenesisState) :
    Evolves s (initOnePopulation tp now s).1 := by
  rcases hfind : KERNEL_TEMPLATES.find? (fun t => t.type == tp) with _ | template
  · simp only [initOnePopulation, hfind]
    refine evolves_append_pop s _ _ rfl rfl le_rfl ?_ ?_ ?_
    · intro a ha; simp at ha
    · simp
    · intro k hk; simp at hk
  · simp only [initOnePopulation, hfind]
    obtain ⟨h1, h2, h3, h4, h5⟩ := initFounders_spec template now 5 s
    refine evolves_append_pop s
      { id := "pop-" ++ kernelTypeStr tp
        name := tp
        generation := 0
        kernels := (initFounders template now 5 s).1
        statistics := { totalCreated := 5, activeCount := 0, archivedCount := 0,
                        averageFitness := 0, bestFitness := 0, fitnessTrend := [],
                        diversityIndex := 0 }
        selectionPressure := s.config.selectionPressure
        mutationRate := s.config.baseMutationRate
        capacity := s.config.populationCapacity / initPopulationTypes.length } _ ?_ ?_ ?_ ?_ ?_ ?_
    · show (initFounders template now 5 s).2.1.populations ++ _ = s.populations ++ _
      rw [h1]
    · exact h2
    · rw [h3]; exact Nat.le_add_right _ _
    · intro a ha
      rw [h4] at ha
      have hb := List.mem_range'_1.mp ha
      rw [h3]
      exact ⟨hb.1, hb.2⟩
    · rw [h4]
      exact List.nodup_range' _ _
    · intro k hk
      rw [h5 k hk]
      intro hc; cases hc

/-- The seeding fold evolves the state. -/
theorem evolves_initFold (now : ℕ) :
    ∀ (l : List KernelType) (s : OntogenesisState) (evs : List EventType),
      Evolves s (l.foldl
        (fun acc tp =>
          let (s1, evs1) := initOnePopulation tp now acc.1
          (s1, acc.2 ++ evs1)) (s, evs)).1
  | [], s, _evs => evolves_refl s
  | tp :: l, s, _evs =>
      evolves_trans (evolves_initOnePopulation tp now s)
        (evolves_initFold now l (initOnePopulation tp now s).1 _)

/-- Population seeding evolves the state. -/
theorem evolves_seed (s : OntogenesisState) (now : ℕ) :
    Evolves s (initializePopulations s now).1 :=
  evolves_initFold now initPopulationTypes s []

/-- Every engine step evolves the state: the archive id list only
grows and the structural invariant is preserved. -/
theorem step_evolves {s s1 : OntogenesisState} (h : Step s s1) : Evolves s s1 := by
  cases h with
  | seed now => exact evolves_seed s now
  | create tmpl cg now => exact evolves_create s tmpl cg now
  | breedOp req rng now => exact evolves_breedOp s req rng now
  | evalOp id scores now => exact evolves_evalOp s id scores now
  | activate id now => exact evolves_activate s id now
  | deprecate id => exact evolves_deprecate s id
  | selectPhase i => exact evolves_selectPhase s i
  | breedPhase i rng now n => exact evolves_breedPhase s i rng now n
  | statsPhase i => exact evolves_statsPhase s i
  | emergencePhase now => exact evolves_emergence s now
  | genIncr i => exact evolves_genIncr s i
  | cycleEnd now => exact evolves_cycleEnd s now
  | startStop b => exact evolves_startStop s b

/-- Any finite run of engine steps evolves the state. -/
theorem steps_evolves {s s1 : OntogenesisState} (h : Steps s s1) : Evolves s s1 := by
  induction h with
  | refl => exact evolves_refl s
  | tail hab hbc ih => exact evolves_trans ih (step_evolves hbc)

/-- Every reachable engine state satisfies the structural
invariant. -/
theorem reachable_wf {cfg : EvolutionConfig} {s : OntogenesisState}
    (h : Reachable cfg s) : StateWF s :=
  (steps_evolves h).2 (stateWF_initial cfg)

/-- C4: archiving is monotonic.  For every reachable engine state and
every kernel id in the archive, after any further sequence of engine
operations (population seeding, external kernel creation, breeding,
fitness evaluation, activation, deprecation, and the selection,
breeding, statistics, emergence and bookkeeping phases of ticks —
including breeding phases aborted by the `TypeError` of C1) the id is
still in the archive and no population's kernels list contains a
kernel with that id. -/
theorem archived_kernels_never_return (cfg : EvolutionConfig) (s s1 : OntogenesisState)
    (id : ℕ) (hreach : Reachable cfg s) (hid : id ∈ archIdsL s) (hsteps : Steps s s1) :
    id ∈ archIdsL s1 ∧ ∀ p ∈ s1.populations, ∀ k ∈ p.kernels, k.id ≠ id := by
  obtain ⟨⟨t, ht⟩, _⟩ := steps_evolves hsteps
  have hid1 : id ∈ archIdsL s1 := by
    rw [ht]
    exact List.mem_append_left t hid
  have hwf1 : StateWF s1 := reachable_wf (Relation.ReflTransGen.trans hreach hsteps)
  refine ⟨hid1, ?_⟩
  intro p hp k hk hkid
  have hmem : id ∈ popsIds s1.populations :=
    mem_popsIds.mpr ⟨p, hp, hkid ▸ List.mem_map_of_mem (fun k => k.id) hk⟩
  have harch : id ∈ ((archIdsL s1 : List ℕ) : Multiset ℕ) := by
    exact_mod_cast hid1
  have hnd := hwf1.2.1
  rw [show allIds s1 = popsIds s1.populations + ↑(archIdsL s1) from rfl,
    Multiset.nodup_add] at hnd
  rw [Multiset.disjoint_left] at hnd
  exact hnd.2.2 hmem harch

/-- C4 witness: starting from a fresh engine, seed the populations,
evaluate founder 0 with all-zero scores and run selection — kernel 0
is archived; the theorem applied with the empty further run shows it
is in the archive and in no population. -/
theorem archived_kernels_never_return_witness :
    0 ∈ archIdsL (performSelection
      (evaluateFitness (initializePopulations (createInitialState DEFAULT_EVOLUTION_CONFIG) 0).1
        0 { performance := some 0, efficiency := some 0, reliability := some 0,
            adaptability := some 0, innovation := some 0 } 1).2 0) ∧
    ∀ p ∈ (performSelection
      (evaluateFitness (initializePopulations (createInitialState DEFAULT_EVOLUTION_CONFIG) 0).1
        0 { performance := some 0, efficiency := some 0, reliability := some 0,
            adaptability := some 0, innovation := some 0 } 1).2 0).populations,
      ∀ k ∈ p.kernels, k.id ≠ 0 :=
  archived_kernels_never_return DEFAULT_EVOLUTION_CONFIG _ _ 0
    (Relation.ReflTransGen.head
      (Step.seed (createInitialState DEFAULT_EVOLUTION_CONFIG) 0)
      (Relation.ReflTransGen.head
        (Step.evalOp (initializePopulations (createInitialState DEFAULT_EVOLUTION_CONFIG) 0).1
          0 { performance := some 0, efficiency := some 0, reliability := some 0,
              adaptability := some 0, innovation := some 0 } 1)
        (Relation.ReflTransGen.single
          (Step.selectPhase
            (evaluateFitness
              (initializePopulations (createInitialState DEFAULT_EVOLUTION_CONFIG) 0).1
              0 { performance := some 0, efficiency := some 0, reliability := some 0,
                  adaptability := some 0, innovation := some 0 } 1).2 0))))
    (of_decide_eq_true (by with_unfolding_all rfl))
    Relation.ReflTransGen.refl

/-- C10 witness: the archived branch applied to the concrete archived
kernel. -/
theorem activateKernel_on_archive_witness :
    (activateKernel exampleArchivedState 0 9).1 = true ∧
    (activateKernel exampleArchivedState 0 9).2.1.populations =
      exampleArchivedState.populations ∧
    (∃ l1 l2, exampleArchivedState.archive = l1 ++ exampleArchivedKernel :: l2 ∧
      (activateKernel exampleArchivedState 0 9).2.1.archive =
        l1 ++ { exampleArchivedKernel with
                state := KernelState.ACTIVE, lastActivated := 9 } :: l2) ∧
    (activateKernel exampleArchivedState 0 9).2.2 = [EventType.kernelActivated] :=
  (activateKernel_on_archive exampleArchivedState 0 9).2.2.2 exampleArchivedKernel
    (fun p hp k' hk' => by
      rcases List.mem_singleton.mp hp with rfl
      simp at hk')
    (by with_unfolding_all rfl) (by with_unfolding_all rfl)

/-- C8 amended, witness: the purity half applied to a genome whose
gene differs only in its (unhashed) name. -/
theorem calculateChecksum_pure_in_id_value_witness :
    exampleGenomeAa.coreGenes.map (fun g => (g.id, g.value)) =
      exampleGenomeRenamed.coreGenes.map (fun g => (g.id, g.value)) ∧
    calculateChecksum exampleGenomeAa = calculateChecksum exampleGenomeRenamed :=
  ⟨by with_unfolding_all rfl,
   calculateChecksum_pure_in_id_value exampleGenomeAa exampleGenomeRenamed
     (by with_unfolding_all rfl) (by with_unfolding_all rfl)⟩

end Daelos
